import Mathlib

set_option maxHeartbeats 1000000
set_option maxRecDepth 100000

/-!
Verification of the active-rules-calculator core of libcalico-go against its
specification.  The calculator itself is embedded from
src/etcd-driver/ipsets/active_rules_calculator.go; the selector language, the
endpoint-to-profile multiset and the label-inheritance index live in packages
whose sources are not part of this snapshot, so they are modelled from the
specification (each such definition is marked in its doc comment).  Model-key
encoding and decoding are embedded from the model package fragment in
src/docs/calicoctl/resources/hostendpoint.md.
-/

namespace Calico

/-- Association-list lookup, mirroring Go map read: first binding wins. -/
def alookup {K V : Type} [DecidableEq K] : List (K × V) → K → Option V
  | [], _ => none
  | (k0, v0) :: rest, k => if k = k0 then some v0 else alookup rest k

/-- Association-list insert, mirroring Go map write: replace the existing
binding or append a new one. -/
def ainsert {K V : Type} [DecidableEq K] : List (K × V) → K → V → List (K × V)
  | [], k, v => [(k, v)]
  | (k0, v0) :: rest, k, v =>
      if k = k0 then (k, v) :: rest else (k0, v0) :: ainsert rest k v

/-- Association-list erase, mirroring Go map delete. -/
def aerase {K V : Type} [DecidableEq K] : List (K × V) → K → List (K × V)
  | [], _ => []
  | (k0, v0) :: rest, k =>
      if k = k0 then aerase rest k else (k0, v0) :: aerase rest k

/-- Set-style insert into a list, mirroring Go `m[k] = true` on a set map. -/
def sinsert {E : Type} [DecidableEq E] (e : E) (l : List E) : List E :=
  if e ∈ l then l else e :: l

/-- Set-style removal from a list, mirroring Go `delete(m, k)` on a set map. -/
def serase {E : Type} [DecidableEq E] (e : E) (l : List E) : List E :=
  l.filter (fun x => x ≠ e)

theorem alookup_ainsert {K V : Type} [DecidableEq K] (m : List (K × V)) (k k' : K) (v : V) :
    alookup (ainsert m k v) k' = if k' = k then some v else alookup m k' := by
  induction m with
  | nil => by_cases h : k' = k <;> simp [ainsert, alookup, h]
  | cons kv rest ih =>
      obtain ⟨k0, v0⟩ := kv
      by_cases hk : k = k0
      · subst hk
        by_cases h : k' = k <;> simp [ainsert, alookup, h]
      · by_cases h : k' = k0
        · subst h
          have hne : ¬ k' = k := fun he => hk (he ▸ rfl)
          simp [ainsert, hk, alookup, hne]
        · simp [ainsert, hk, alookup, h, ih]

theorem alookup_aerase {K V : Type} [DecidableEq K] (m : List (K × V)) (k k' : K) :
    alookup (aerase m k) k' = if k' = k then none else alookup m k' := by
  induction m with
  | nil => by_cases h : k' = k <;> simp [aerase, alookup, h]
  | cons kv rest ih =>
      obtain ⟨k0, v0⟩ := kv
      by_cases hk : k = k0
      · subst hk
        by_cases h : k' = k
        · subst h
          simp [aerase, alookup, ih]
        · simp [aerase, alookup, h, ih]
      · by_cases h : k' = k0
        · subst h
          have hne : ¬ k' = k := fun he => hk (he ▸ rfl)
          simp [aerase, hk, alookup, hne, ih]
        · simp [aerase, hk, alookup, h, ih]

theorem mem_sinsert {E : Type} [DecidableEq E] (a e : E) (l : List E) :
    a ∈ sinsert e l ↔ a = e ∨ a ∈ l := by
  by_cases h : e ∈ l
  · simp only [sinsert, if_pos h]
    constructor
    · exact fun ha => Or.inr ha
    · rintro (rfl | ha)
      · exact h
      · exact ha
  · simp [sinsert, if_neg h]

theorem mem_serase {E : Type} [DecidableEq E] (a e : E) (l : List E) :
    a ∈ serase e l ↔ a ∈ l ∧ a ≠ e := by
  simp [serase, List.mem_filter]

theorem sinsert_ne_nil {E : Type} [DecidableEq E] (e : E) (l : List E) :
    sinsert e l ≠ [] := by
  by_cases h : e ∈ l
  · simp only [sinsert, if_pos h]
    intro hnil
    subst hnil
    simp at h
  · simp [sinsert, if_neg h]

/-- Key identifying a workload endpoint (backend.WorkloadEndpointKey). -/
structure WorkloadEndpointKey where
  hostname : String
  orchestratorID : String
  workloadID : String
  endpointID : String
deriving DecidableEq, Repr

/-- Key identifying a host endpoint (backend.HostEndpointKey). -/
structure HostEndpointKey where
  hostname : String
  endpointID : String
deriving DecidableEq, Repr

/-- Go `endpointKey` holds either a workload- or a host-endpoint key. -/
inductive EndpointKey where
  | workload (k : WorkloadEndpointKey)
  | host (k : HostEndpointKey)
deriving DecidableEq, Repr

/-- backend.Rule is opaque payload to the calculator: none of its fields is
inspected by the code under verification, so it is modelled as a wrapper. -/
structure Rule where
  raw : String
deriving DecidableEq, Repr

/-- backend.PolicyKey. -/
structure PolicyKey where
  name : String
  tier : String
deriving DecidableEq, Repr

/-- backend.Policy.  The order field is numeric payload (f32 in Go) that the
calculator never inspects. -/
structure Policy where
  order : Option Int
  inboundRules : List Rule
  outboundRules : List Rule
  selector : String
deriving DecidableEq, Repr

/-- backend.ProfileRules. -/
structure ProfileRules where
  inboundRules : List Rule
  outboundRules : List Rule
deriving DecidableEq, Repr

/-- A label map, keyed by label name; first binding wins on lookup. -/
abbrev LabelMap := List (String × String)

/-- Modelled from the spec: selector expression tree (data model, section 3).
The selector package source is absent from src; only its test suite is
present.  Nodes: All, Has, Equal, NotEqual, In, NotIn, And, Or, Not. -/
inductive Selector where
  | all
  | has (key : String)
  | eqCmp (key : String) (value : String)
  | neCmp (key : String) (value : String)
  | inSet (key : String) (values : List String)
  | notInSet (key : String) (values : List String)
  | and (a b : Selector)
  | or (a b : Selector)
  | not (a : Selector)
deriving DecidableEq, Repr

/-- Modelled from the spec: the selector evaluator (section 4.B).  NotEqual
and NotIn treat an absent key as true. -/
def evaluate : Selector → LabelMap → Bool
  | .all, _ => true
  | .has k, labels => (alookup labels k).isSome
  | .eqCmp k v, labels =>
      match alookup labels k with
      | some w => w = v
      | none => false
  | .neCmp k v, labels =>
      match alookup labels k with
      | some w => w ≠ v
      | none => true
  | .inSet k vs, labels =>
      match alookup labels k with
      | some w => w ∈ vs
      | none => false
  | .notInSet k vs, labels =>
      match alookup labels k with
      | some w => w ∉ vs
      | none => true
  | .and a b, labels => evaluate a labels && evaluate b labels
  | .or a b, labels => evaluate a labels || evaluate b labels
  | .not a, labels => ! evaluate a labels

/-- The double-quote character. -/
def dquoteChar : Char := '\"'

/-- The single-quote character. -/
def squoteChar : Char := '\''

/-- Modelled from the spec: canonical quoting of a literal (section 4.A):
double-quoted when the value contains no double quote, otherwise
single-quoted. -/
def quoteLit (v : String) : String :=
  if v.contains dquoteChar then
    String.singleton squoteChar ++ v ++ String.singleton squoteChar
  else
    String.singleton dquoteChar ++ v ++ String.singleton dquoteChar

/-- Modelled from the spec: canonical form of a literal set. -/
def setLit (vs : List String) : String :=
  "\x7b" ++ String.intercalate ", " (vs.map quoteLit) ++ "\x7d"

/-- Does an operand of And need parentheses in canonical form?  Only Or does
(section 4.A). -/
def isOrNode : Selector → Bool
  | .or _ _ => true
  | _ => false

/-- Does the operand of Not need parentheses in canonical form?  And, Or, and
a Not of a compound do (section 4.A). -/
def notNeedsParens : Selector → Bool
  | .and _ _ => true
  | .or _ _ => true
  | .not e => notNeedsParens e
  | _ => false

/-- Modelled from the spec: the canonical text of a selector tree
(section 4.A), matching the canonicalisationTests fixtures under src. -/
def selToString : Selector → String
  | .all => "all()"
  | .has k => "has(" ++ k ++ ")"
  | .eqCmp k v => k ++ " == " ++ quoteLit v
  | .neCmp k v => k ++ " != " ++ quoteLit v
  | .inSet k vs => k ++ " in " ++ setLit vs
  | .notInSet k vs => k ++ " not in " ++ setLit vs
  | .and a b =>
      (if isOrNode a then "(" ++ selToString a ++ ")" else selToString a)
        ++ " && "
        ++ (if isOrNode b then "(" ++ selToString b ++ ")" else selToString b)
  | .or a b => selToString a ++ " || " ++ selToString b
  | .not e =>
      "!" ++ (if notNeedsParens e then "(" ++ selToString e ++ ")" else selToString e)

/-- Lexical token of the selector grammar. -/
inductive Token where
  | lparen | rparen | lbrace | rbrace | comma
  | andOp | orOp | bang | eqOp | neOp
  | ident (s : String)
  | strLit (s : String)
deriving DecidableEq, Repr

/-- Parse error with position and message (spec SyntaxError). -/
structure ParseErr where
  pos : Nat
  msg : String
deriving DecidableEq, Repr

/-- Whitespace accepted between tokens. -/
def isWs (c : Char) : Bool := c = ' ' ∨ c = '\t' ∨ c = '\n' ∨ c = '\r'

/-- First character of an identifier: ALPHA or underscore. -/
def isIdentStart (c : Char) : Bool :=
  ('A' ≤ c ∧ c ≤ 'Z') ∨ ('a' ≤ c ∧ c ≤ 'z') ∨ c = '_'

/-- Subsequent identifier characters per the grammar. -/
def isIdentChar (c : Char) : Bool :=
  isIdentStart c ∨ ('0' ≤ c ∧ c ≤ '9') ∨ c = '.' ∨ c = '/' ∨ c = '-'

/-- Modelled from the spec: the selector tokenizer (grammar, section 4.A).
Fuel is an upper bound on steps; every step consumes at least one input
character, so the initial fuel in tokenize is never exhausted. -/
def tokenizeFuel : Nat → List Char → Nat → Except ParseErr (List Token)
  | 0, _, pos => .error ⟨pos, "tokenizer ran out of fuel"⟩
  | _ + 1, [], _ => .ok []
  | fuel + 1, c :: rest, pos =>
    if isWs c then tokenizeFuel fuel rest (pos + 1)
    else if c = '(' then (tokenizeFuel fuel rest (pos + 1)).map (Token.lparen :: ·)
    else if c = ')' then (tokenizeFuel fuel rest (pos + 1)).map (Token.rparen :: ·)
    else if c = '\x7b' then (tokenizeFuel fuel rest (pos + 1)).map (Token.lbrace :: ·)
    else if c = '\x7d' then (tokenizeFuel fuel rest (pos + 1)).map (Token.rbrace :: ·)
    else if c = ',' then (tokenizeFuel fuel rest (pos + 1)).map (Token.comma :: ·)
    else if c = '!' then
      match rest with
      | '=' :: r2 => (tokenizeFuel fuel r2 (pos + 2)).map (Token.neOp :: ·)
      | _ => (tokenizeFuel fuel rest (pos + 1)).map (Token.bang :: ·)
    else if c = '=' then
      match rest with
      | '=' :: r2 => (tokenizeFuel fuel r2 (pos + 2)).map (Token.eqOp :: ·)
      | _ => .error ⟨pos, "expected =="⟩
    else if c = '&' then
      match rest with
      | '&' :: r2 => (tokenizeFuel fuel r2 (pos + 2)).map (Token.andOp :: ·)
      | _ => .error ⟨pos, "expected &&"⟩
    else if c = '|' then
      match rest with
      | '|' :: r2 => (tokenizeFuel fuel r2 (pos + 2)).map (Token.orOp :: ·)
      | _ => .error ⟨pos, "expected ||"⟩
    else if c = dquoteChar ∨ c = squoteChar then
      let lit := rest.takeWhile (fun x => x ≠ c)
      match rest.dropWhile (fun x => x ≠ c) with
      | [] => .error ⟨pos, "unterminated string literal"⟩
      | _ :: r3 =>
          (tokenizeFuel fuel r3 (pos + lit.length + 2)).map (Token.strLit (String.mk lit) :: ·)
    else if isIdentStart c then
      let idChars := c :: rest.takeWhile isIdentChar
      (tokenizeFuel fuel (rest.dropWhile isIdentChar) (pos + idChars.length)).map
        (Token.ident (String.mk idChars) :: ·)
    else .error ⟨pos, "unexpected character"⟩

/-- Modelled from the spec: tokenize a selector string. -/
def tokenize (s : String) : Except ParseErr (List Token) :=
  tokenizeFuel (s.data.length + 1) s.data 0

/-- Reserved words of the grammar, rejected as bare identifiers. -/
def reservedWords : List String := ["has", "in", "not", "all"]

/-- Modelled from the spec: literal-set tail, after the opening brace and the
first literal. -/
def parseSetRest : List Token → Except ParseErr (List String × List Token)
  | .rbrace :: r => .ok ([], r)
  | .comma :: .strLit v :: r => do
      let (vs, r2) ← parseSetRest r
      .ok (v :: vs, r2)
  | _ => .error ⟨0, "expected comma or closing brace in literal set"⟩

/-- Modelled from the spec: a braced literal set, possibly empty. -/
def parseSetLit : List Token → Except ParseErr (List String × List Token)
  | .lbrace :: .rbrace :: r => .ok ([], r)
  | .lbrace :: .strLit v :: r => do
      let (vs, r2) ← parseSetRest r
      .ok (v :: vs, r2)
  | _ => .error ⟨0, "expected literal set"⟩

/-- Modelled from the spec: comparison tail after a left-hand identifier:
equality, inequality, in, or not in. -/
def parseCmpTail (k : String) : List Token → Except ParseErr (Selector × List Token)
  | .eqOp :: .strLit v :: r => .ok (.eqCmp k v, r)
  | .neOp :: .strLit v :: r => .ok (.neCmp k v, r)
  | .ident "in" :: r => do
      let (vs, r2) ← parseSetLit r
      .ok (.inSet k vs, r2)
  | .ident "not" :: .ident "in" :: r => do
      let (vs, r2) ← parseSetLit r
      .ok (.notInSet k vs, r2)
  | _ => .error ⟨0, "expected comparator after identifier"⟩

mutual

/-- Modelled from the spec: orExpr of the grammar. -/
def parseOrExpr : Nat → List Token → Except ParseErr (Selector × List Token)
  | 0, _ => .error ⟨0, "parser ran out of fuel"⟩
  | fuel + 1, ts => do
      let (a, r) ← parseAndExpr fuel ts
      parseOrRest fuel a r

/-- Modelled from the spec: iterated or-continuations. -/
def parseOrRest : Nat → Selector → List Token → Except ParseErr (Selector × List Token)
  | 0, _, _ => .error ⟨0, "parser ran out of fuel"⟩
  | fuel + 1, a, .orOp :: r => do
      let (b, r2) ← parseAndExpr fuel r
      parseOrRest fuel (.or a b) r2
  | _ + 1, a, ts => .ok (a, ts)

/-- Modelled from the spec: andExpr of the grammar. -/
def parseAndExpr : Nat → List Token → Except ParseErr (Selector × List Token)
  | 0, _ => .error ⟨0, "parser ran out of fuel"⟩
  | fuel + 1, ts => do
      let (a, r) ← parseNotExpr fuel ts
      parseAndRest fuel a r

/-- Modelled from the spec: iterated and-continuations. -/
def parseAndRest : Nat → Selector → List Token → Except ParseErr (Selector × List Token)
  | 0, _, _ => .error ⟨0, "parser ran out of fuel"⟩
  | fuel + 1, a, .andOp :: r => do
      let (b, r2) ← parseNotExpr fuel r
      parseAndRest fuel (.and a b) r2
  | _ + 1, a, ts => .ok (a, ts)

/-- Modelled from the spec: notExpr, a run of bangs before a primary. -/
def parseNotExpr : Nat → List Token → Except ParseErr (Selector × List Token)
  | 0, _ => .error ⟨0, "parser ran out of fuel"⟩
  | fuel + 1, .bang :: r => do
      let (e, r2) ← parseNotExpr fuel r
      .ok (.not e, r2)
  | fuel + 1, ts => parsePrimary fuel ts

/-- Modelled from the spec: primary of the grammar: parenthesised orExpr,
all(), has(ident), or a comparison whose left-hand side is an identifier. -/
def parsePrimary : Nat → List Token → Except ParseErr (Selector × List Token)
  | 0, _ => .error ⟨0, "parser ran out of fuel"⟩
  | fuel + 1, .lparen :: r => do
      let (e, r2) ← parseOrExpr fuel r
      match r2 with
      | .rparen :: r3 => .ok (e, r3)
      | _ => .error ⟨0, "expected closing parenthesis"⟩
  | _ + 1, .ident "all" :: .lparen :: .rparen :: r => .ok (.all, r)
  | _ + 1, .ident "has" :: .lparen :: .ident k :: .rparen :: r =>
      if k ∈ reservedWords then .error ⟨0, "reserved word as label name"⟩
      else .ok (.has k, r)
  | _ + 1, .ident k :: r =>
      if k ∈ reservedWords then .error ⟨0, "reserved word in value position"⟩
      else parseCmpTail k r
  | _ + 1, _ => .error ⟨0, "unexpected token"⟩

end

/-- Modelled from the spec: the selector parser (section 4.A).  The empty or
whitespace-only selector is not an error and denotes All; trailing tokens are
rejected. -/
def parse (s : String) : Except ParseErr Selector :=
  match tokenize s with
  | .error e => .error e
  | .ok [] => .ok .all
  | .ok ts =>
    match parseOrExpr (4 * ts.length + 8) ts with
    | .error e => .error e
    | .ok (e, []) => .ok e
    | .ok (_, _ :: _) => .error ⟨0, "unexpected trailing tokens"⟩

/-- The modulus of 32-bit words. -/
def w32 : Nat := 4294967296

/-- Rotate a 32-bit word right by k bits. -/
def rotr32 (k x : Nat) : Nat :=
  ((x >>> k) ||| (x <<< (32 - k))) &&& 4294967295

/-- SHA-256 big sigma 0. -/
def bigSigma0 (x : Nat) : Nat := (rotr32 2 x) ^^^ (rotr32 13 x) ^^^ (rotr32 22 x)

/-- SHA-256 big sigma 1. -/
def bigSigma1 (x : Nat) : Nat := (rotr32 6 x) ^^^ (rotr32 11 x) ^^^ (rotr32 25 x)

/-- SHA-256 small sigma 0. -/
def smallSigma0 (x : Nat) : Nat := (rotr32 7 x) ^^^ (rotr32 18 x) ^^^ (x >>> 3)

/-- SHA-256 small sigma 1. -/
def smallSigma1 (x : Nat) : Nat := (rotr32 17 x) ^^^ (rotr32 19 x) ^^^ (x >>> 10)

/-- SHA-256 round constants (FIPS 180-4, written in decimal). -/
def shaK : List Nat :=
  [1116352408, 1899447441, 3049323471, 3921009573, 961987163, 1508970993,
   2453635748, 2870763221, 3624381080, 310598401, 607225278, 1426881987,
   1925078388, 2162078206, 2614888103, 3248222580, 3835390401, 4022224774,
   264347078, 604807628, 770255983, 1249150122, 1555081692, 1996064986,
   2554220882, 2821834349, 2952996808, 3210313671, 3336571891, 3584528711,
   113926993, 338241895, 666307205, 773529912, 1294757372, 1396182291,
   1695183700, 1986661051, 2177026350, 2456956037, 2730485921, 2820302411,
   3259730800, 3345764771, 3516065817, 3600352804, 4094571909, 275423344,
   430227734, 506948616, 659060556, 883997877, 958139571, 1322822218,
   1537002063, 1747873779, 1955562222, 2024104815, 2227730452, 2361852424,
   2428436474, 2756734187, 3204031479, 3329325298]

/-- The eight-word working state of SHA-256/224 compression. -/
structure HashState where
  a : Nat
  b : Nat
  c : Nat
  d : Nat
  e : Nat
  f : Nat
  g : Nat
  h : Nat
deriving DecidableEq, Repr

/-- SHA-224 initial hash value (FIPS 180-4, written in decimal). -/
def sha224Init : HashState :=
  ⟨3238371032, 914150663, 812702999, 4144912697, 4290775857, 1750603025, 1694076839, 3204075428⟩

/-- Pad a byte message per FIPS 180-4: a 0x80 byte, zeros to 56 mod 64, and
the bit length as eight big-endian bytes. -/
def padMessage (msg : List Nat) : List Nat :=
  let n := msg.length
  let k := (64 + 56 - ((n + 1) % 64)) % 64
  let bits := 8 * n
  msg ++ [0x80] ++ List.replicate k 0 ++
    [(bits >>> 56) &&& 255, (bits >>> 48) &&& 255, (bits >>> 40) &&& 255, (bits >>> 32) &&& 255,
     (bits >>> 24) &&& 255, (bits >>> 16) &&& 255, (bits >>> 8) &&& 255, bits &&& 255]

/-- Split a list into 64-byte blocks; fuel bounds the number of blocks and
is never exhausted when it is at least the list length. -/
def toBlocksFuel : Nat → List Nat → List (List Nat)
  | 0, _ => []
  | _ + 1, [] => []
  | fuel + 1, l => (l.take 64) :: toBlocksFuel fuel (l.drop 64)

/-- Split a padded message into 64-byte blocks. -/
def toBlocks (l : List Nat) : List (List Nat) := toBlocksFuel l.length l

/-- Extend the sixteen message-schedule words to sixty-four. -/
def extendW : Nat → List Nat → List Nat
  | 0, ws => ws
  | j + 1, ws =>
      let i := ws.length
      let x := (ws.getD (i - 16) 0 + smallSigma0 (ws.getD (i - 15) 0)
                + ws.getD (i - 7) 0 + smallSigma1 (ws.getD (i - 2) 0)) % w32
      extendW j (ws ++ [x])

/-- The sixty-four-entry message schedule of one block. -/
def msgSchedule (block : List Nat) : List Nat :=
  let w0 := (List.range 16).map (fun i =>
    ((block.getD (4 * i) 0) <<< 24) + ((block.getD (4 * i + 1) 0) <<< 16)
      + ((block.getD (4 * i + 2) 0) <<< 8) + block.getD (4 * i + 3) 0)
  extendW 48 w0

/-- One SHA-256/224 compression round. -/
def shaRound (w : List Nat) (st : HashState) (t : Nat) : HashState :=
  let s1 := bigSigma1 st.e
  let ch := (st.e &&& st.f) ^^^ ((st.e ^^^ 4294967295) &&& st.g)
  let temp1 := (st.h + s1 + ch + shaK.getD t 0 + w.getD t 0) % w32
  let s0 := bigSigma0 st.a
  let maj := (st.a &&& st.b) ^^^ (st.a &&& st.c) ^^^ (st.b &&& st.c)
  let temp2 := (s0 + maj) % w32
  ⟨(temp1 + temp2) % w32, st.a, st.b, st.c, (st.d + temp1) % w32, st.e, st.f, st.g⟩

/-- Compress one 64-byte block into the running hash state. -/
def compressBlock (H : HashState) (block : List Nat) : HashState :=
  let w := msgSchedule block
  let st := (List.range 64).foldl (shaRound w) H
  ⟨(H.a + st.a) % w32, (H.b + st.b) % w32, (H.c + st.c) % w32, (H.d + st.d) % w32,
   (H.e + st.e) % w32, (H.f + st.f) % w32, (H.g + st.g) % w32, (H.h + st.h) % w32⟩

/-- The four big-endian bytes of a 32-bit word. -/
def wordBytes (x : Nat) : List Nat :=
  [(x >>> 24) &&& 255, (x >>> 16) &&& 255, (x >>> 8) &&& 255, x &&& 255]

/-- SHA-224 digest of a byte message: the first seven words of the final
state, as 28 big-endian bytes. -/
def sha224 (msg : List Nat) : List Nat :=
  let H := (toBlocks (padMessage msg)).foldl compressBlock sha224Init
  wordBytes H.a ++ wordBytes H.b ++ wordBytes H.c ++ wordBytes H.d
    ++ wordBytes H.e ++ wordBytes H.f ++ wordBytes H.g

/-- The URL-safe base64 alphabet. -/
def b64Table : List Char :=
  ['A', 'B', 'C', 'D', 'E', 'F', 'G', 'H', 'I', 'J', 'K', 'L', 'M',
   'N', 'O', 'P', 'Q', 'R', 'S', 'T', 'U', 'V', 'W', 'X', 'Y', 'Z',
   'a', 'b', 'c', 'd', 'e', 'f', 'g', 'h', 'i', 'j', 'k', 'l', 'm',
   'n', 'o', 'p', 'q', 'r', 's', 't', 'u', 'v', 'w', 'x', 'y', 'z',
   '0', '1', '2', '3', '4', '5', '6', '7', '8', '9', '-', '_']

/-- The URL-safe base64 character of a six-bit value. -/
def b64Char (n : Nat) : Char := b64Table.getD (n % 64) 'A'

/-- URL-safe base64 encoding without padding. -/
def b64EncodeRaw : List Nat → List Char
  | b1 :: b2 :: b3 :: rest =>
      b64Char (b1 / 4) :: b64Char ((b1 % 4) * 16 + b2 / 16)
        :: b64Char ((b2 % 16) * 4 + b3 / 64) :: b64Char (b3 % 64)
        :: b64EncodeRaw rest
  | [b1, b2] => [b64Char (b1 / 4), b64Char ((b1 % 4) * 16 + b2 / 16), b64Char ((b2 % 16) * 4)]
  | [b1] => [b64Char (b1 / 4), b64Char ((b1 % 4) * 16)]
  | [] => []

/-- Bytes of an ASCII string; all canonical selector texts are ASCII. -/
def strBytes (s : String) : List Nat := s.data.map Char.toNat

/-- Modelled from the spec: the stable selector UID (section 4.A).  The
selector package source is absent from src; the spec fixes the shape as a
prefixed URL-safe base64 hash of the canonical text, and the repository test
fixtures (canonicalisationTests under src) pin the exact scheme: the full,
untruncated SHA-224 digest of the canonical text prefixed with "s:",
base64url-encoded without padding, and again prefixed with "s:". -/
def uniqueId (sel : Selector) : String :=
  let canon := selToString sel
  "s:" ++ String.mk (b64EncodeRaw (sha224 (strBytes ("s:" ++ canon))))

/-- Modelled from the spec: the endpoint-to-profile-IDs multiset
(section 4.C, tags.EndpointKeyToProfileIDMap, source absent from src): a map
from endpoint key to its current ordered profile-ID list. -/
structure EndpointKeyToProfileIDMap where
  m : List (EndpointKey × List String)
deriving DecidableEq, Repr

/-- The empty multiset. -/
def emptyProfileIDMap : EndpointKeyToProfileIDMap := ⟨[]⟩

/-- The profile-ID list currently recorded for an endpoint. -/
def msProfileIDs (ms : EndpointKeyToProfileIDMap) (e : EndpointKey) : List String :=
  (alookup ms.m e).getD []

/-- Modelled from the spec: multiset update (section 4.C).  Returns the
removed IDs and the added IDs, each the set difference of the deduplicated
previous and new lists; a delete is an update to the empty list. -/
def msUpdate (ms : EndpointKeyToProfileIDMap) (e : EndpointKey) (newIds : List String) :
    List String × List String × EndpointKeyToProfileIDMap :=
  let oldSet := (msProfileIDs ms e).dedup
  let newSet := newIds.dedup
  let removed := oldSet.filter (fun i => i ∉ newSet)
  let added := newSet.filter (fun i => i ∉ oldSet)
  let m2 := if newIds.isEmpty then aerase ms.m e else ainsert ms.m e newIds
  (removed, added, ⟨m2⟩)

/-- Non-zero reference count of a profile ID in the multiset: the number of
distinct endpoint keys whose recorded list contains the ID. -/
def msRefCount (ms : EndpointKeyToProfileIDMap) (pid : String) : Nat :=
  (((ms.m.map Prod.fst).dedup).filter (fun e => pid ∈ msProfileIDs ms e)).length

/-- Modelled from the spec: the state of the label-inheritance index
(section 4.D, labels.LabelInheritanceIndex, source absent from src): own
labels and parent IDs per endpoint, labels per parent profile, the tracked
selectors, and the recorded set of matching pairs. -/
structure IndexState where
  endpointLabels : List (EndpointKey × LabelMap)
  endpointParentIDs : List (EndpointKey × List String)
  parentLabels : List (String × LabelMap)
  selectors : List (PolicyKey × Selector)
  matchPairs : List (PolicyKey × EndpointKey)
deriving DecidableEq, Repr

/-- The empty index. -/
def emptyIndex : IndexState := ⟨[], [], [], [], []⟩

/-- Modelled from the spec: effective labels of an endpoint (section 3): the
labels of each referenced parent profile in list order, later parents
overriding earlier ones, overlaid by the endpoint's own labels. -/
def effectiveLabels (st : IndexState) (e : EndpointKey) : LabelMap :=
  let parents := (alookup st.endpointParentIDs e).getD []
  let base := parents.foldl (fun acc pid => (alookup st.parentLabels pid).getD [] ++ acc) []
  ((alookup st.endpointLabels e).getD []) ++ base

/-- Modelled from the spec: the match relation M (section 3): all pairs of a
tracked selector and a registered endpoint whose effective labels satisfy
it, without duplicates. -/
def computeMatches (st : IndexState) : List (PolicyKey × EndpointKey) :=
  ((st.selectors.map (fun sv =>
      (st.endpointLabels.filterMap (fun ep =>
        if evaluate sv.2 (effectiveLabels st ep.1) then some (sv.1, ep.1) else none)))).flatten).dedup

/-- A match delta emitted by the index: started or stopped, for one pair. -/
structure Delta where
  started : Bool
  sid : PolicyKey
  ekey : EndpointKey
deriving DecidableEq, Repr

/-- Modelled from the spec: after any public operation the index recomputes
the match relation, records it, and emits match-stopped then match-started
callbacks for exactly the pairs that changed state (section 4.D). -/
def indexRecompute (st : IndexState) : IndexState × List Delta :=
  let newM := computeMatches st
  let stopped := st.matchPairs.filter (fun p => p ∉ newM)
  let started := newM.filter (fun p => p ∉ st.matchPairs)
  ({st with matchPairs := newM},
   stopped.map (fun p => ⟨false, p.1, p.2⟩) ++ started.map (fun p => ⟨true, p.1, p.2⟩))

/-- Modelled from the spec: register or update an endpoint's own labels and
parent IDs (update_labels). -/
def idxUpdateLabels (st : IndexState) (e : EndpointKey) (own : LabelMap)
    (parents : List String) : IndexState × List Delta :=
  indexRecompute { st with
    endpointLabels := ainsert st.endpointLabels e own,
    endpointParentIDs := ainsert st.endpointParentIDs e parents }

/-- Modelled from the spec: unregister an endpoint (delete_labels). -/
def idxDeleteLabels (st : IndexState) (e : EndpointKey) : IndexState × List Delta :=
  indexRecompute { st with
    endpointLabels := aerase st.endpointLabels e,
    endpointParentIDs := aerase st.endpointParentIDs e }

/-- Modelled from the spec: set the labels of a parent profile
(update_parent_labels). -/
def idxUpdateParentLabels (st : IndexState) (pid : String) (labels : LabelMap) :
    IndexState × List Delta :=
  indexRecompute { st with parentLabels := ainsert st.parentLabels pid labels }

/-- Modelled from the spec: remove the labels of a parent profile
(delete_parent_labels). -/
def idxDeleteParentLabels (st : IndexState) (pid : String) : IndexState × List Delta :=
  indexRecompute { st with parentLabels := aerase st.parentLabels pid }

/-- Modelled from the spec: register or replace a tracked selector
(update_selector). -/
def idxUpdateSelector (st : IndexState) (sid : PolicyKey) (sel : Selector) :
    IndexState × List Delta :=
  indexRecompute { st with selectors := ainsert st.selectors sid sel }

/-- Modelled from the spec: stop tracking a selector (delete_selector). -/
def idxDeleteSelector (st : IndexState) (sid : PolicyKey) : IndexState × List Delta :=
  indexRecompute { st with selectors := aerase st.selectors sid }

/-- The key passed to the rule listener: a policy key or a profile ID (Go
passes an interface value). -/
inductive RuleKey where
  | policy (k : PolicyKey)
  | profile (id : String)
deriving DecidableEq, Repr

/-- An observable emission of the calculator: a rule-listener callback, a
downstream felix update, or a match-listener notification.  The Go code
invokes each listener only when it is wired (non-nil); the trace records the
notification that such a listener would receive. -/
inductive Event where
  | updateRules (key : RuleKey) (inbound outbound : List Rule)
  | felixUpdate (key : String) (valueOrNil : Option String)
  | policyMatch (policyKey : PolicyKey) (endpointKey : EndpointKey)
deriving DecidableEq, Repr

/-- Modelled from the spec: the downstream wire key of a policy
(section 6; backend.KeyToFelixKey source absent from src). -/
def felixPolicyPath (k : PolicyKey) : String :=
  "/v1/policy/tier/" ++ k.tier ++ "/policy/" ++ k.name

/-- Modelled from the spec: the downstream wire key of a profile rules node
(section 6; backend.KeyToFelixKey source absent from src). -/
def felixProfilePath (id : String) : String :=
  "/v1/policy/profile/" ++ id ++ "/rules"

/-- A stable serialisation of a rule list; the calculator treats serialised
payloads as opaque and only their presence or absence matters here. -/
def serializeRules (rs : List Rule) : String :=
  String.intercalate "," (rs.map Rule.raw)

/-- A stable serialisation of a policy payload. -/
def serializePolicy (p : Policy) : String :=
  "policy(" ++ (match p.order with | some o => toString o | none => "") ++ ";"
    ++ serializeRules p.inboundRules ++ ";" ++ serializeRules p.outboundRules ++ ";"
    ++ p.selector ++ ")"

/-- A stable serialisation of a profile-rules payload. -/
def serializeProfileRules (r : ProfileRules) : String :=
  "rules(" ++ serializeRules r.inboundRules ++ ";" ++ serializeRules r.outboundRules ++ ")"

/-- The state of the ActiveRulesCalculator (active_rules_calculator.go,
lines 40 to 59): caches of all known policies and profile rules, the active
policy and profile endpoint sets, the label index and the
endpoint-to-profile multiset. -/
structure ArcState where
  allPolicies : List (PolicyKey × Policy)
  allProfileRules : List (String × ProfileRules)
  policyIDToEndpointKeys : List (PolicyKey × List EndpointKey)
  profileIDToEndpointKeys : List (String × List EndpointKey)
  labelIndex : IndexState
  endpointKeyToProfileIDs : EndpointKeyToProfileIDMap
deriving DecidableEq, Repr

/-- The freshly constructed calculator (NewActiveRulesCalculator). -/
def initialArc : ArcState :=
  ⟨[], [], [], [], emptyIndex, emptyProfileIDMap⟩

/-- Membership of an endpoint in the active set recorded for a policy. -/
def polMem (s : ArcState) (pk : PolicyKey) (e : EndpointKey) : Bool :=
  match alookup s.policyIDToEndpointKeys pk with
  | some l => e ∈ l
  | none => false

/-- Membership of an endpoint in the active set recorded for a profile. -/
def profMem (s : ArcState) (pid : String) (e : EndpointKey) : Bool :=
  match alookup s.profileIDToEndpointKeys pid with
  | some l => e ∈ l
  | none => false

/-- sendProfileUpdate (active_rules_calculator.go, lines 219 to 251): when
the profile is both known and active the listener gets the actual rule
lists and felix a serialised value; otherwise the listener gets empty lists
and felix a null value. -/
def sendProfileUpdate (s : ArcState) (profileID : String) : List Event :=
  let asEtcdKey := felixProfilePath profileID
  match alookup s.allProfileRules profileID,
        (alookup s.profileIDToEndpointKeys profileID).isSome with
  | some rules, true =>
      [.updateRules (.profile profileID) rules.inboundRules rules.outboundRules,
       .felixUpdate asEtcdKey (some (serializeProfileRules rules))]
  | some _, false =>
      [.updateRules (.profile profileID) [] [], .felixUpdate asEtcdKey none]
  | none, _ =>
      [.updateRules (.profile profileID) [] [], .felixUpdate asEtcdKey none]

/-- sendPolicyUpdate (active_rules_calculator.go, lines 253 to 290): when the
policy is both known and active the listener gets the rule lists of a deep
copy of the policy (equal, as values, to the cached policy) and felix a
serialised value; otherwise the listener gets empty lists and felix a null
value. -/
def sendPolicyUpdate (s : ArcState) (policyKey : PolicyKey) : List Event :=
  let asEtcdKey := felixPolicyPath policyKey
  match alookup s.allPolicies policyKey,
        (alookup s.policyIDToEndpointKeys policyKey).isSome with
  | some policy, true =>
      [.updateRules (.policy policyKey) policy.inboundRules policy.outboundRules,
       .felixUpdate asEtcdKey (some (serializePolicy policy))]
  | some _, false =>
      [.updateRules (.policy policyKey) [] [], .felixUpdate asEtcdKey none]
  | none, _ =>
      [.updateRules (.policy policyKey) [] [], .felixUpdate asEtcdKey none]

/-- onMatchStarted (active_rules_calculator.go, lines 191 to 206): if the
policy had no recorded entry, record an empty set and send a policy update
(at that intermediate state the policy counts as active); then add the
endpoint to the set and notify the match listener in every case. -/
def onMatchStarted (s : ArcState) (polKey : PolicyKey) (ekey : EndpointKey) :
    ArcState × List Event :=
  match alookup s.policyIDToEndpointKeys polKey with
  | none =>
      let s1 := { s with policyIDToEndpointKeys := ainsert s.policyIDToEndpointKeys polKey [] }
      let evs := sendPolicyUpdate s1 polKey
      let s2 := { s1 with
        policyIDToEndpointKeys := ainsert s1.policyIDToEndpointKeys polKey (sinsert ekey []) }
      (s2, evs ++ [.policyMatch polKey ekey])
  | some keys =>
      ({ s with
        policyIDToEndpointKeys := ainsert s.policyIDToEndpointKeys polKey (sinsert ekey keys) },
       [.policyMatch polKey ekey])

/-- onMatchStopped (active_rules_calculator.go, lines 208 to 217): remove the
endpoint from the recorded set; if the set is then empty, delete the entry
and send a policy update (now inactive, hence empty rules). -/
def onMatchStopped (s : ArcState) (polKey : PolicyKey) (ekey : EndpointKey) :
    ArcState × List Event :=
  let keys := (alookup s.policyIDToEndpointKeys polKey).getD []
  let keys2 := serase ekey keys
  if keys2.isEmpty then
    let s1 := { s with policyIDToEndpointKeys := aerase s.policyIDToEndpointKeys polKey }
    (s1, sendPolicyUpdate s1 polKey)
  else
    ({ s with policyIDToEndpointKeys := ainsert s.policyIDToEndpointKeys polKey keys2 }, [])

/-- One added-profile step of updateEndpoint (lines 166 to 175): when the
profile had no recorded entry, record an empty set and send a profile update
(at that intermediate state the profile counts as active); then add the
endpoint to the set. -/
def addProfileStep (key : EndpointKey) (acc : ArcState × List Event) (id : String) :
    ArcState × List Event :=
  let (st, evs) := acc
  match alookup st.profileIDToEndpointKeys id with
  | none =>
      let stA := { st with profileIDToEndpointKeys := ainsert st.profileIDToEndpointKeys id [] }
      let evsN := sendProfileUpdate stA id
      let stB := { stA with
        profileIDToEndpointKeys := ainsert stA.profileIDToEndpointKeys id (sinsert key []) }
      (stB, evs ++ evsN)
  | some keys =>
      ({ st with
        profileIDToEndpointKeys := ainsert st.profileIDToEndpointKeys id (sinsert key keys) },
       evs)

/-- One removed-profile step of updateEndpoint (lines 179 to 188): remove the
endpoint from the recorded set; if the set is then empty, delete the entry
and send a profile update (now inactive, hence empty rules). -/
def removeProfileStep (key : EndpointKey) (acc : ArcState × List Event) (id : String) :
    ArcState × List Event :=
  let (st, evs) := acc
  let keys2 := serase key ((alookup st.profileIDToEndpointKeys id).getD [])
  if keys2.isEmpty then
    let stA := { st with profileIDToEndpointKeys := aerase st.profileIDToEndpointKeys id }
    (stA, evs ++ sendProfileUpdate stA id)
  else
    ({ st with profileIDToEndpointKeys := ainsert st.profileIDToEndpointKeys id keys2 }, evs)

/-- updateEndpoint (active_rules_calculator.go, lines 160 to 189): diff the
profile IDs through the multiset, then process added IDs and removed IDs. -/
def updateEndpoint (s : ArcState) (key : EndpointKey) (profileIDs : List String) :
    ArcState × List Event :=
  let (removedIDs, addedIDs, ms2) := msUpdate s.endpointKeyToProfileIDs key profileIDs
  let s0 := { s with endpointKeyToProfileIDs := ms2 }
  let (s1, evs1) := addedIDs.foldl (addProfileStep key) (s0, [])
  removedIDs.foldl (removeProfileStep key) (s1, evs1)

/-- Apply one index callback to the calculator. -/
def applyDelta (s : ArcState) (d : Delta) : ArcState × List Event :=
  if d.started then onMatchStarted s d.sid d.ekey else onMatchStopped s d.sid d.ekey

/-- Apply the callbacks fired during one index operation, in order. -/
def applyDeltas (s : ArcState) : List Delta → ArcState × List Event
  | [] => (s, [])
  | d :: ds =>
      let (s1, evs1) := applyDelta s d
      let (s2, evs2) := applyDeltas s1 ds
      (s2, evs1 ++ evs2)

/-- store.ParsedUpdate as dispatched by OnUpdate: a typed key together with
an optional payload (nil means delete).  Endpoint payloads carry only the
fields the calculator reads, labels and profile IDs; the default branch of
the Go switch is covered by the other constructor. -/
inductive ParsedUpdate where
  | workloadEndpoint (k : WorkloadEndpointKey) (labels : LabelMap)
      (profileIDs : List String)
  | workloadEndpointGone (k : WorkloadEndpointKey)
  | hostEndpoint (k : HostEndpointKey) (labels : LabelMap) (profileIDs : List String)
  | hostEndpointGone (k : HostEndpointKey)
  | profileLabels (name : String) (labels : LabelMap)
  | profileLabelsGone (name : String)
  | profileRules (name : String) (rules : ProfileRules)
  | profileRulesGone (name : String)
  | policy (k : PolicyKey) (value : Policy)
  | policyGone (k : PolicyKey)
  | other
deriving Repr

/-- Shared handling of a present endpoint (lines 87 to 96 and 97 to 107):
update the multiset and then the label index. -/
def handleEndpointUpdate (s : ArcState) (key : EndpointKey) (labels : LabelMap)
    (profileIDs : List String) : ArcState × List Event :=
  let (s1, evs1) := updateEndpoint s key profileIDs
  let (idx2, ds) := idxUpdateLabels s1.labelIndex key labels profileIDs
  let (s2, evs2) := applyDeltas { s1 with labelIndex := idx2 } ds
  (s2, evs1 ++ evs2)

/-- Shared handling of a deleted endpoint: an empty-profile update of the
multiset and removal from the label index. -/
def handleEndpointGone (s : ArcState) (key : EndpointKey) : ArcState × List Event :=
  let (s1, evs1) := updateEndpoint s key []
  let (idx2, ds) := idxDeleteLabels s1.labelIndex key
  let (s2, evs2) := applyDeltas { s1 with labelIndex := idx2 } ds
  (s2, evs1 ++ evs2)

/-- OnUpdate (active_rules_calculator.go, lines 85 to 158).  A parse failure
of a policy selector is glog.Fatal in Go, which aborts the process; the
model returns none for that case and some of the new state and the emitted
events otherwise. -/
def OnUpdate (s : ArcState) (u : ParsedUpdate) : Option (ArcState × List Event) :=
  match u with
  | .workloadEndpoint k labels profileIDs =>
      some (handleEndpointUpdate s (.workload k) labels profileIDs)
  | .workloadEndpointGone k => some (handleEndpointGone s (.workload k))
  | .hostEndpoint k labels profileIDs =>
      some (handleEndpointUpdate s (.host k) labels profileIDs)
  | .hostEndpointGone k => some (handleEndpointGone s (.host k))
  | .profileLabels name labels =>
      let (idx2, ds) := idxUpdateParentLabels s.labelIndex name labels
      some (applyDeltas { s with labelIndex := idx2 } ds)
  | .profileLabelsGone name =>
      let (idx2, ds) := idxDeleteParentLabels s.labelIndex name
      some (applyDeltas { s with labelIndex := idx2 } ds)
  | .profileRules name rules =>
      let s1 := { s with allProfileRules := ainsert s.allProfileRules name rules }
      if (alookup s1.profileIDToEndpointKeys name).isSome then
        some (s1, sendProfileUpdate s1 name)
      else
        some (s1, [])
  | .profileRulesGone name =>
      let s1 := { s with allProfileRules := aerase s.allProfileRules name }
      if (alookup s1.profileIDToEndpointKeys name).isSome then
        some (s1, sendProfileUpdate s1 name)
      else
        some (s1, [])
  | .policy k pol =>
      let s1 := { s with allPolicies := ainsert s.allPolicies k pol }
      match parse pol.selector with
      | .error _ => none
      | .ok sel =>
          let (idx2, ds) := idxUpdateSelector s1.labelIndex k sel
          let (s2, evs) := applyDeltas { s1 with labelIndex := idx2 } ds
          if (alookup s2.policyIDToEndpointKeys k).isSome then
            some (s2, evs ++ sendPolicyUpdate s2 k)
          else
            some (s2, evs)
  | .policyGone k =>
      let s1 := { s with allPolicies := aerase s.allPolicies k }
      let (idx2, ds) := idxDeleteSelector s1.labelIndex k
      some (applyDeltas { s1 with labelIndex := idx2 } ds)
  | .other => some (s, [])

/-- The states reachable from the fresh calculator by OnUpdate calls that do
not hit the fatal selector-parse branch. -/
inductive Reachable : ArcState → Prop where
  | init : Reachable initialArc
  | step {s s2 : ArcState} {u : ParsedUpdate} {evs : List Event} :
      Reachable s → OnUpdate s u = some (s2, evs) → Reachable s2

/-- errors.ErrorInsufficientIdentifiers, carrying the missing field name. -/
inductive ModelError where
  | errorInsufficientIdentifiers (name : String)
deriving DecidableEq, Repr

/-- PolicyKey.defaultPath (model package fragment under src, lines 378 to
388): an InsufficientIdentifiers error when tier or name is empty, else the
policy path. -/
def defaultPath (key : PolicyKey) : Except ModelError String :=
  if key.tier = "" then .error (.errorInsufficientIdentifiers "tier")
  else if key.name = "" then .error (.errorInsufficientIdentifiers "name")
  else .ok ("/calico/v1/policy/tier/" ++ key.tier ++ "/policy/" ++ key.name)

/-- PolicyListOptions (model package fragment under src). -/
structure PolicyListOptions where
  name : String
  tier : String
deriving DecidableEq, Repr

/-- Strip an exact character sequence from the front of the input. -/
def stripLit : List Char → List Char → Option (List Char)
  | [], cs => some cs
  | _ :: _, [] => none
  | p :: ps, c :: cs => if c = p then stripLit ps cs else none

/-- Drop one leading slash if present, mirroring the optional slash of the
matchPolicy regular expression. -/
def dropLeadSlash : List Char → List Char
  | '/' :: r => r
  | r => r

/-- The anchored matchPolicy regular expression of the model package,
caret slash-question calico/v1/policy/tier/ group one /policy/ group two
dollar, where both groups are nonempty runs of non-slash characters: returns
the tier and name captures when the whole input matches. -/
def matchPolicyPath (cs : List Char) : Option (String × String) :=
  match stripLit "calico/v1/policy/tier/".data (dropLeadSlash cs) with
  | none => none
  | some r1 =>
    let tier := r1.takeWhile (fun c => c ≠ '/')
    let r2 := r1.dropWhile (fun c => c ≠ '/')
    if tier.isEmpty then none
    else
      match stripLit "/policy/".data r2 with
      | none => none
      | some nm =>
          if nm.isEmpty then none
          else if nm.any (fun c => c = '/') then none
          else some (String.mk tier, String.mk nm)

/-- PolicyListOptions.KeyFromDefaultPath (model package fragment under src,
lines 420 to 438): match the path against the policy regular expression,
then apply the tier and name filters of the options. -/
def keyFromDefaultPath (options : PolicyListOptions) (path : String) : Option PolicyKey :=
  match matchPolicyPath path.data with
  | none => none
  | some (tier, nm) =>
      if options.tier ≠ "" ∧ tier ≠ options.tier then none
      else if options.name ≠ "" ∧ nm ≠ options.name then none
      else some ⟨nm, tier⟩

/-- C8: defaultPath returns ErrorInsufficientIdentifiers exactly when tier or
name is empty (tier checked first), and the policy path with no error
otherwise. -/
theorem defaultPath_insufficientIdentifiers_iff (key : PolicyKey) :
    (key.tier = "" → defaultPath key = .error (.errorInsufficientIdentifiers "tier"))
    ∧ (key.tier ≠ "" → key.name = "" →
        defaultPath key = .error (.errorInsufficientIdentifiers "name"))
    ∧ (key.tier ≠ "" → key.name ≠ "" →
        defaultPath key = .ok ("/calico/v1/policy/tier/" ++ key.tier ++ "/policy/" ++ key.name))
    ∧ ((∃ e, defaultPath key = .error e) ↔ (key.tier = "" ∨ key.name = "")) := by
  refine ⟨fun h => by simp [defaultPath, h], fun h1 h2 => by simp [defaultPath, h1, h2],
    fun h1 h2 => by simp [defaultPath, h1, h2], ?_⟩
  constructor
  · rintro ⟨e, he⟩
    by_cases h1 : key.tier = ""
    · exact Or.inl h1
    · by_cases h2 : key.name = ""
      · exact Or.inr h2
      · simp [defaultPath, h1, h2] at he
  · rintro (h | h)
    · exact ⟨.errorInsufficientIdentifiers "tier", by simp [defaultPath, h]⟩
    · by_cases h1 : key.tier = ""
      · exact ⟨.errorInsufficientIdentifiers "tier", by simp [defaultPath, h1]⟩
      · exact ⟨.errorInsufficientIdentifiers "name", by simp [defaultPath, h1, h]⟩

/-- Witness for C8 at a concrete key with nonempty tier and name. -/
theorem defaultPath_insufficientIdentifiers_iff_witness :
    defaultPath ⟨"n1", "t1"⟩ = .ok ("/calico/v1/policy/tier/" ++ "t1" ++ "/policy/" ++ "n1") :=
  (defaultPath_insufficientIdentifiers_iff ⟨"n1", "t1"⟩).2.2.1 (by decide) (by decide)

theorem stripLit_append (p r : List Char) : stripLit p (p ++ r) = some r := by
  induction p with
  | nil => rfl
  | cons c cs ih => simp [stripLit, ih]

theorem takeWhile_noSlash (l r : List Char) (h : ∀ c ∈ l, c ≠ '/') :
    (l ++ '/' :: r).takeWhile (fun c => c ≠ '/') = l := by
  induction l with
  | nil => simp
  | cons c cs ih =>
      have hc : c ≠ '/' := h c (by simp)
      have ih2 := ih (fun x hx => h x (by simp [hx]))
      rw [List.cons_append, List.takeWhile_cons, if_pos (by simpa using hc), ih2]

theorem dropWhile_noSlash (l r : List Char) (h : ∀ c ∈ l, c ≠ '/') :
    (l ++ '/' :: r).dropWhile (fun c => c ≠ '/') = '/' :: r := by
  induction l with
  | nil => simp
  | cons c cs ih =>
      have hc : c ≠ '/' := h c (by simp)
      have ih2 := ih (fun x hx => h x (by simp [hx]))
      rw [List.cons_append, List.dropWhile_cons, if_pos (by simpa using hc), ih2]

theorem strMk_data (s : String) : String.mk s.data = s := by cases s; rfl

theorem data_ne_nil_of_ne_empty (s : String) (h : s ≠ "") : s.data ≠ [] := by
  intro hd
  apply h
  cases s
  simp_all

/-- C10: for every policy key with nonempty, slash-free tier and name, the
path produced by defaultPath decodes through KeyFromDefaultPath with empty
list options back to the same key. -/
theorem defaultPath_keyFromDefaultPath_roundTrip (key : PolicyKey)
    (htier : key.tier ≠ "") (hname : key.name ≠ "")
    (htierS : ∀ c ∈ key.tier.data, c ≠ '/')
    (hnameS : ∀ c ∈ key.name.data, c ≠ '/') :
    ∃ p, defaultPath key = .ok p ∧
      keyFromDefaultPath ⟨"", ""⟩ p = some key := by
  refine ⟨"/calico/v1/policy/tier/" ++ key.tier ++ "/policy/" ++ key.name,
    by simp [defaultPath, htier, hname], ?_⟩
  have e1 : ("/calico/v1/policy/tier/" : String).data
      = '/' :: ("calico/v1/policy/tier/" : String).data := by decide
  have e2 : ("/policy/" : String).data = '/' :: ("policy/" : String).data := by decide
  have hsplit : ("/calico/v1/policy/tier/" ++ key.tier ++ "/policy/" ++ key.name).data
      = '/' :: (("calico/v1/policy/tier/" : String).data
          ++ (key.tier.data ++ (("/policy/" : String).data ++ key.name.data))) := by
    simp [String.data_append, e1]
  have hmatch : matchPolicyPath
      ("/calico/v1/policy/tier/" ++ key.tier ++ "/policy/" ++ key.name).data
      = some (key.tier, key.name) := by
    rw [hsplit]
    have hd : dropLeadSlash ('/' :: (("calico/v1/policy/tier/" : String).data
        ++ (key.tier.data ++ (("/policy/" : String).data ++ key.name.data))))
        = ("calico/v1/policy/tier/" : String).data
          ++ (key.tier.data ++ (("/policy/" : String).data ++ key.name.data)) := rfl
    have hmid : key.tier.data ++ (("/policy/" : String).data ++ key.name.data)
        = key.tier.data ++ '/' :: (("policy/" : String).data ++ key.name.data) := by
      rw [e2]
      rfl
    simp only [matchPolicyPath, hd, stripLit_append]
    rw [hmid]
    rw [takeWhile_noSlash _ _ htierS, dropWhile_noSlash _ _ htierS]
    have htne : key.tier.data.isEmpty = false := by
      cases hdt : key.tier.data with
      | nil => exact absurd hdt (data_ne_nil_of_ne_empty _ htier)
      | cons c cs => rfl
    rw [htne]
    simp only [Bool.false_eq_true, if_false]
    have hstrip2 : stripLit ("/policy/" : String).data
        ('/' :: (("policy/" : String).data ++ key.name.data)) = some key.name.data := by
      rw [e2]
      exact stripLit_append _ _
    rw [hstrip2]
    have hnne : key.name.data.isEmpty = false := by
      cases hdn : key.name.data with
      | nil => exact absurd hdn (data_ne_nil_of_ne_empty _ hname)
      | cons c cs => rfl
    have hany : key.name.data.any (fun c => c = '/') = false := by
      rw [List.any_eq_false]
      intro c hc
      simpa using hnameS c hc
    simp [hnne, hany, strMk_data]
  simp only [keyFromDefaultPath, hmatch]
  simp

/-- Witness for C10 at a concrete key. -/
theorem defaultPath_keyFromDefaultPath_roundTrip_witness :
    ∃ p, defaultPath ⟨"p1", "t1"⟩ = .ok p ∧
      keyFromDefaultPath ⟨"", ""⟩ p = some ⟨"p1", "t1"⟩ :=
  defaultPath_keyFromDefaultPath_roundTrip ⟨"p1", "t1"⟩ (by decide) (by decide)
    (by decide) (by decide)

/-- Every event emitted by sendPolicyUpdate is a rule update or a felix
update, never a match notification. -/
theorem policyMatch_not_mem_sendPolicyUpdate (s : ArcState) (pk : PolicyKey)
    (pk2 : PolicyKey) (e2 : EndpointKey) :
    Event.policyMatch pk2 e2 ∉ sendPolicyUpdate s pk := by
  unfold sendPolicyUpdate
  rcases alookup s.allPolicies pk with _ | pol <;>
    rcases (alookup s.policyIDToEndpointKeys pk).isSome with _ | _ <;> simp

/-- C9: onMatchStopped never notifies the match listener: no OnPolicyMatch
notification appears among its emissions, for any policy and endpoint. -/
theorem onMatchStopped_no_match_notification (s : ArcState) (pk : PolicyKey)
    (e : EndpointKey) (pk2 : PolicyKey) (e2 : EndpointKey) :
    Event.policyMatch pk2 e2 ∉ (onMatchStopped s pk e).2 := by
  unfold onMatchStopped
  by_cases h : (serase e ((alookup s.policyIDToEndpointKeys pk).getD [])).isEmpty
  · simp only [h, if_true]
    exact policyMatch_not_mem_sendPolicyUpdate _ pk pk2 e2
  · simp [h]

/-- C3: every rule-update emission passes the actual rule lists and a
serialised (non-null) felix value when the entity is known and active, and
empty rule lists with a null felix value when it is unknown or inactive, for
policies and for profiles alike. -/
theorem sendUpdate_active_known_rules (s : ArcState) (pk : PolicyKey) (pid : String)
    (pol : Policy) (rules : ProfileRules) :
    (alookup s.allPolicies pk = some pol →
      (alookup s.policyIDToEndpointKeys pk).isSome = true →
      sendPolicyUpdate s pk =
        [.updateRules (.policy pk) pol.inboundRules pol.outboundRules,
         .felixUpdate (felixPolicyPath pk) (some (serializePolicy pol))])
    ∧ (alookup s.allPolicies pk = none ∨ (alookup s.policyIDToEndpointKeys pk).isSome = false →
      sendPolicyUpdate s pk =
        [.updateRules (.policy pk) [] [], .felixUpdate (felixPolicyPath pk) none])
    ∧ (alookup s.allProfileRules pid = some rules →
      (alookup s.profileIDToEndpointKeys pid).isSome = true →
      sendProfileUpdate s pid =
        [.updateRules (.profile pid) rules.inboundRules rules.outboundRules,
         .felixUpdate (felixProfilePath pid) (some (serializeProfileRules rules))])
    ∧ (alookup s.allProfileRules pid = none ∨
        (alookup s.profileIDToEndpointKeys pid).isSome = false →
      sendProfileUpdate s pid =
        [.updateRules (.profile pid) [] [], .felixUpdate (felixProfilePath pid) none]) := by
  refine ⟨fun hk ha => by simp [sendPolicyUpdate, hk, ha], ?_,
    fun hk ha => by simp [sendProfileUpdate, hk, ha], ?_⟩
  · rintro (hk | ha)
    · simp [sendPolicyUpdate, hk]
    · unfold sendPolicyUpdate
      rw [ha]
      rcases alookup s.allPolicies pk with _ | p <;> rfl
  · rintro (hk | ha)
    · simp [sendProfileUpdate, hk]
    · unfold sendProfileUpdate
      rw [ha]
      rcases alookup s.allProfileRules pid with _ | p <;> rfl

/-- Witness for C3 at a concrete state with one known active policy and one
unknown profile. -/
theorem sendUpdate_active_known_rules_witness :
    sendPolicyUpdate
        ⟨[(⟨"p1", "t1"⟩, ⟨none, [⟨"i"⟩], [⟨"o"⟩], "all()"⟩)], [],
         [(⟨"p1", "t1"⟩, [.host ⟨"h", "e"⟩])], [], emptyIndex, emptyProfileIDMap⟩
        ⟨"p1", "t1"⟩ =
      [.updateRules (.policy ⟨"p1", "t1"⟩) [⟨"i"⟩] [⟨"o"⟩],
       .felixUpdate (felixPolicyPath ⟨"p1", "t1"⟩)
         (some (serializePolicy ⟨none, [⟨"i"⟩], [⟨"o"⟩], "all()"⟩))] :=
  (sendUpdate_active_known_rules
      ⟨[(⟨"p1", "t1"⟩, ⟨none, [⟨"i"⟩], [⟨"o"⟩], "all()"⟩)], [],
       [(⟨"p1", "t1"⟩, [.host ⟨"h", "e"⟩])], [], emptyIndex, emptyProfileIDMap⟩
      ⟨"p1", "t1"⟩ "q" ⟨none, [⟨"i"⟩], [⟨"o"⟩], "all()"⟩ ⟨[], []⟩).1
    (by decide) (by decide)

/-- C1: the two index callbacks of the calculator.  On match started the
endpoint joins the recorded set, a policy-activated rule update carrying the
current policy body is emitted exactly when the set of matching endpoints
was previously empty, and the match listener is notified in every case.  On
match stopped the endpoint leaves the set and a policy-deactivated rule
update with empty rules is emitted exactly when the set becomes empty.  The
well-formedness hypothesis, that recorded sets are never empty, holds in
every reachable state. -/
theorem onMatch_transitions (s : ArcState) (pk : PolicyKey) (e : EndpointKey) (pol : Policy)
    (hknown : alookup s.allPolicies pk = some pol)
    (hwf : ∀ pk2 l, alookup s.policyIDToEndpointKeys pk2 = some l → l ≠ []) :
    polMem (onMatchStarted s pk e).1 pk e = true
    ∧ (onMatchStarted s pk e).2 =
        (if (alookup s.policyIDToEndpointKeys pk).getD [] = [] then
          [.updateRules (.policy pk) pol.inboundRules pol.outboundRules,
           .felixUpdate (felixPolicyPath pk) (some (serializePolicy pol))]
        else []) ++ [.policyMatch pk e]
    ∧ polMem (onMatchStopped s pk e).1 pk e = false
    ∧ (onMatchStopped s pk e).2 =
        (if serase e ((alookup s.policyIDToEndpointKeys pk).getD []) = [] then
          [.updateRules (.policy pk) [] [], .felixUpdate (felixPolicyPath pk) none]
        else []) := by
  refine ⟨?_, ?_, ?_, ?_⟩
  · cases h : alookup s.policyIDToEndpointKeys pk with
    | none =>
        simp [onMatchStarted, h, polMem, alookup_ainsert, sinsert]
    | some keys =>
        simp [onMatchStarted, h, polMem, alookup_ainsert, mem_sinsert]
  · cases h : alookup s.policyIDToEndpointKeys pk with
    | none =>
        simp only [onMatchStarted, h, Option.getD_none, if_pos rfl]
        simp [sendPolicyUpdate, hknown, alookup_ainsert]
    | some keys =>
        have hne : keys ≠ [] := hwf pk keys h
        simp [onMatchStarted, h, hne]
  · by_cases hemp : (serase e ((alookup s.policyIDToEndpointKeys pk).getD [])).isEmpty
    · simp [onMatchStopped, hemp, polMem, alookup_aerase]
    · simp only [onMatchStopped, hemp, Bool.false_eq_true, if_false]
      simp [polMem, alookup_ainsert, mem_serase]
  · by_cases hemp : (serase e ((alookup s.policyIDToEndpointKeys pk).getD [])).isEmpty
    · have hnil : serase e ((alookup s.policyIDToEndpointKeys pk).getD []) = [] := by
        simpa [List.isEmpty_iff] using hemp
      simp only [onMatchStopped, hemp, if_true, hnil, if_pos rfl]
      simp [sendPolicyUpdate, hknown, alookup_aerase]
    · have hnil : serase e ((alookup s.policyIDToEndpointKeys pk).getD []) ≠ [] := by
        simpa [List.isEmpty_iff] using hemp
      simp [onMatchStopped, hemp, hnil]

/-- Witness for C1 at a concrete state holding one known policy whose
recorded set contains one endpoint. -/
theorem onMatch_transitions_witness :
    polMem
        (onMatchStarted
          ⟨[(⟨"p1", "t1"⟩, ⟨none, [⟨"i"⟩], [⟨"o"⟩], "all()"⟩)], [],
           [(⟨"p1", "t1"⟩, [.host ⟨"h", "e1"⟩])], [], emptyIndex, emptyProfileIDMap⟩
          ⟨"p1", "t1"⟩ (.host ⟨"h", "e2"⟩)).1
      ⟨"p1", "t1"⟩ (.host ⟨"h", "e2"⟩) = true :=
  (onMatch_transitions
      ⟨[(⟨"p1", "t1"⟩, ⟨none, [⟨"i"⟩], [⟨"o"⟩], "all()"⟩)], [],
       [(⟨"p1", "t1"⟩, [.host ⟨"h", "e1"⟩])], [], emptyIndex, emptyProfileIDMap⟩
      ⟨"p1", "t1"⟩ (.host ⟨"h", "e2"⟩) ⟨none, [⟨"i"⟩], [⟨"o"⟩], "all()"⟩
      (by decide)
      (fun pk2 l h => by
        by_cases hpk : pk2 = (⟨"p1", "t1"⟩ : PolicyKey)
        · subst hpk
          simp [alookup] at h
          simp [← h]
        · simp [alookup, hpk] at h)).1

/-- The index callbacks touch only the active-policy map: every other field
of the calculator state is unchanged. -/
theorem applyDelta_frame (s : ArcState) (d : Delta) :
    (applyDelta s d).1.allPolicies = s.allPolicies
    ∧ (applyDelta s d).1.allProfileRules = s.allProfileRules
    ∧ (applyDelta s d).1.profileIDToEndpointKeys = s.profileIDToEndpointKeys
    ∧ (applyDelta s d).1.labelIndex = s.labelIndex
    ∧ (applyDelta s d).1.endpointKeyToProfileIDs = s.endpointKeyToProfileIDs := by
  by_cases hd : d.started = true
  · simp only [applyDelta, hd, if_true]
    unfold onMatchStarted
    cases alookup s.policyIDToEndpointKeys d.sid <;> simp
  · simp only [applyDelta, hd, Bool.false_eq_true, if_false]
    unfold onMatchStopped
    by_cases h2 : (serase d.ekey ((alookup s.policyIDToEndpointKeys d.sid).getD [])).isEmpty <;>
      simp [h2]

/-- Folding index callbacks touches only the active-policy map. -/
theorem applyDeltas_frame (ds : List Delta) (s : ArcState) :
    (applyDeltas s ds).1.allPolicies = s.allPolicies
    ∧ (applyDeltas s ds).1.allProfileRules = s.allProfileRules
    ∧ (applyDeltas s ds).1.profileIDToEndpointKeys = s.profileIDToEndpointKeys
    ∧ (applyDeltas s ds).1.labelIndex = s.labelIndex
    ∧ (applyDeltas s ds).1.endpointKeyToProfileIDs = s.endpointKeyToProfileIDs := by
  induction ds generalizing s with
  | nil => simp [applyDeltas]
  | cons d rest ih =>
      obtain ⟨h1, h2, h3, h4, h5⟩ := applyDelta_frame s d
      obtain ⟨g1, g2, g3, g4, g5⟩ := ih (applyDelta s d).1
      simp only [applyDeltas]
      exact ⟨g1.trans h1, g2.trans h2, g3.trans h3, g4.trans h4, g5.trans h5⟩

/-- A policy update whose selector parses completes and stores the policy. -/
theorem onUpdate_policy_stores (s : ArcState) (k : PolicyKey) (pol : Policy) (sel : Selector)
    (hp : parse pol.selector = .ok sel) :
    ∃ r, OnUpdate s (.policy k pol) = some r ∧ alookup r.1.allPolicies k = some pol := by
  have hfr := (applyDeltas_frame (idxUpdateSelector s.labelIndex k sel).2
      { s with allPolicies := ainsert s.allPolicies k pol,
               labelIndex := (idxUpdateSelector s.labelIndex k sel).1 }).1
  have hall : alookup (applyDeltas
      { s with allPolicies := ainsert s.allPolicies k pol,
               labelIndex := (idxUpdateSelector s.labelIndex k sel).1 }
      (idxUpdateSelector s.labelIndex k sel).2).1.allPolicies k = some pol := by
    rw [hfr]
    simp [alookup_ainsert]
  simp only [OnUpdate, hp]
  split
  · exact ⟨_, rfl, hall⟩
  · exact ⟨_, rfl, hall⟩

/-- C5: on a present policy value, OnUpdate aborts (returns no state, the
model of glog.Fatal) exactly when the selector fails to parse; when the
selector parses, the update completes and the policy is stored in
allPolicies, so validated selectors never reach the fatal branch. -/
theorem onUpdate_policy_fatal_iff_parse_error (s : ArcState) (k : PolicyKey) (pol : Policy) :
    ((∃ err, parse pol.selector = .error err) ↔ OnUpdate s (.policy k pol) = none)
    ∧ (∀ sel, parse pol.selector = .ok sel →
        ∃ r, OnUpdate s (.policy k pol) = some r ∧ alookup r.1.allPolicies k = some pol) := by
  constructor
  · constructor
    · rintro ⟨err, herr⟩
      simp [OnUpdate, herr]
    · intro h
      cases hp : parse pol.selector with
      | error err => exact ⟨err, rfl⟩
      | ok sel =>
          obtain ⟨r, hr, _⟩ := onUpdate_policy_stores s k pol sel hp
          rw [hr] at h
          cases h
  · intro sel hp
    exact onUpdate_policy_stores s k pol sel hp

/-- Witness for C5: a policy with the invalid selector percent aborts, and
one with the empty selector (which parses to All) is stored. -/
theorem onUpdate_policy_fatal_iff_parse_error_witness :
    OnUpdate initialArc (.policy ⟨"p1", "t1"⟩ ⟨none, [], [], "%"⟩) = none
    ∧ ∃ r, OnUpdate initialArc (.policy ⟨"p1", "t1"⟩ ⟨none, [], [], ""⟩) = some r
        ∧ alookup r.1.allPolicies ⟨"p1", "t1"⟩ = some ⟨none, [], [], ""⟩ :=
  ⟨(onUpdate_policy_fatal_iff_parse_error initialArc ⟨"p1", "t1"⟩ ⟨none, [], [], "%"⟩).1.mp
      ⟨⟨0, "unexpected character"⟩, by rfl⟩,
   (onUpdate_policy_fatal_iff_parse_error initialArc ⟨"p1", "t1"⟩ ⟨none, [], [], ""⟩).2
      .all (by rfl)⟩

/-- The number of rule-update emissions addressed to a given profile ID. -/
def profUpdCount (pid : String) (evs : List Event) : Nat :=
  evs.countP (fun ev => match ev with
    | .updateRules (.profile pid2) _ _ => pid2 == pid
    | _ => false)

theorem profUpdCount_append (pid : String) (evs1 evs2 : List Event) :
    profUpdCount pid (evs1 ++ evs2) = profUpdCount pid evs1 + profUpdCount pid evs2 :=
  List.countP_append _ _ _

theorem profUpdCount_send (s : ArcState) (pid2 pid : String) :
    profUpdCount pid (sendProfileUpdate s pid2) = if pid2 = pid then 1 else 0 := by
  unfold sendProfileUpdate
  rcases alookup s.allProfileRules pid2 with _ | r <;>
    rcases (alookup s.profileIDToEndpointKeys pid2).isSome with _ | _ <;>
      by_cases h : pid2 = pid <;> simp [profUpdCount, h]

theorem profUpdCount_addProfileStep (key : EndpointKey) (acc : ArcState × List Event)
    (id pid : String) :
    profUpdCount pid (addProfileStep key acc id).2
      = profUpdCount pid acc.2
        + (if id = pid ∧ alookup acc.1.profileIDToEndpointKeys id = none then 1 else 0) := by
  obtain ⟨st, evs⟩ := acc
  unfold addProfileStep
  cases h : alookup st.profileIDToEndpointKeys id with
  | none => simp [h, profUpdCount_append, profUpdCount_send]
  | some keys => simp [h]

theorem addProfileStep_entry_other (key : EndpointKey) (acc : ArcState × List Event)
    (id pid : String) (h : pid ≠ id) :
    alookup (addProfileStep key acc id).1.profileIDToEndpointKeys pid
      = alookup acc.1.profileIDToEndpointKeys pid := by
  obtain ⟨st, evs⟩ := acc
  unfold addProfileStep
  cases hl : alookup st.profileIDToEndpointKeys id <;> simp [hl, alookup_ainsert, h]

theorem addProfileStep_entry_self (key : EndpointKey) (acc : ArcState × List Event)
    (id : String) :
    ∃ l, alookup (addProfileStep key acc id).1.profileIDToEndpointKeys id = some l := by
  obtain ⟨st, evs⟩ := acc
  unfold addProfileStep
  cases hl : alookup st.profileIDToEndpointKeys id <;> simp [hl, alookup_ainsert]

theorem profUpdCount_addFold (key : EndpointKey) (l : List String)
    (acc : ArcState × List Event) (pid : String) :
    profUpdCount pid ((l.foldl (addProfileStep key) acc).2)
      = profUpdCount pid acc.2
        + (if pid ∈ l ∧ alookup acc.1.profileIDToEndpointKeys pid = none then 1 else 0) := by
  induction l generalizing acc with
  | nil => simp
  | cons id rest ih =>
      rw [List.foldl_cons, ih, profUpdCount_addProfileStep]
      by_cases hid : id = pid
      · subst hid
        obtain ⟨l0, hl0⟩ := addProfileStep_entry_self key acc id
        rw [hl0]
        cases h : alookup acc.1.profileIDToEndpointKeys id <;> simp [h]
      · rw [addProfileStep_entry_other key acc id pid (fun he => hid he.symm)]
        rw [if_neg (fun hc => hid hc.1), add_zero]
        by_cases hX : alookup acc.1.profileIDToEndpointKeys pid = none
        · by_cases hmem : pid ∈ rest
          · rw [if_pos ⟨hmem, hX⟩, if_pos ⟨List.mem_cons.mpr (Or.inr hmem), hX⟩]
          · rw [if_neg (fun hc => hmem hc.1),
              if_neg (fun hc =>
                (List.mem_cons.mp hc.1).elim (fun he => hid he.symm) hmem)]
        · rw [if_neg (fun hc => hX hc.2), if_neg (fun hc => hX hc.2)]

theorem addFold_entry_other (key : EndpointKey) (l : List String)
    (acc : ArcState × List Event) (pid : String) (h : pid ∉ l) :
    alookup ((l.foldl (addProfileStep key) acc).1).profileIDToEndpointKeys pid
      = alookup acc.1.profileIDToEndpointKeys pid := by
  induction l generalizing acc with
  | nil => rfl
  | cons id rest ih =>
      rw [List.foldl_cons, ih _ (fun hm => h (List.mem_cons.mpr (Or.inr hm))),
        addProfileStep_entry_other key acc id pid
          (fun he => h (List.mem_cons.mpr (Or.inl he)))]

theorem profUpdCount_removeProfileStep (key : EndpointKey) (acc : ArcState × List Event)
    (id pid : String) :
    profUpdCount pid (removeProfileStep key acc id).2
      = profUpdCount pid acc.2
        + (if id = pid ∧
              serase key ((alookup acc.1.profileIDToEndpointKeys id).getD []) = []
            then 1 else 0) := by
  obtain ⟨st, evs⟩ := acc
  unfold removeProfileStep
  by_cases h : (serase key ((alookup st.profileIDToEndpointKeys id).getD [])).isEmpty
  · have hnil : serase key ((alookup st.profileIDToEndpointKeys id).getD []) = [] := by
      simpa [List.isEmpty_iff] using h
    simp [h, hnil, profUpdCount_append, profUpdCount_send]
  · have hnil : serase key ((alookup st.profileIDToEndpointKeys id).getD []) ≠ [] := by
      simpa [List.isEmpty_iff] using h
    simp [h, hnil]

theorem removeProfileStep_entry_other (key : EndpointKey) (acc : ArcState × List Event)
    (id pid : String) (h : pid ≠ id) :
    alookup (removeProfileStep key acc id).1.profileIDToEndpointKeys pid
      = alookup acc.1.profileIDToEndpointKeys pid := by
  obtain ⟨st, evs⟩ := acc
  unfold removeProfileStep
  by_cases hl : (serase key ((alookup st.profileIDToEndpointKeys id).getD [])).isEmpty <;>
    simp [hl, alookup_ainsert, alookup_aerase, h]

theorem profUpdCount_removeFold (key : EndpointKey) (l : List String)
    (acc : ArcState × List Event) (pid : String) (hnd : l.Nodup) :
    profUpdCount pid ((l.foldl (removeProfileStep key) acc).2)
      = profUpdCount pid acc.2
        + (if pid ∈ l ∧
              serase key ((alookup acc.1.profileIDToEndpointKeys pid).getD []) = []
            then 1 else 0) := by
  induction l generalizing acc with
  | nil => simp
  | cons id rest ih =>
      obtain ⟨hni, hndr⟩ := List.nodup_cons.mp hnd
      rw [List.foldl_cons, ih _ hndr, profUpdCount_removeProfileStep]
      by_cases hid : id = pid
      · subst hid
        have hnr : ¬ (id ∈ rest ∧
            serase key ((alookup (removeProfileStep key acc id).1.profileIDToEndpointKeys
              id).getD []) = []) := fun hc => hni hc.1
        simp [hnr]
      · rw [removeProfileStep_entry_other key acc id pid (fun he => hid he.symm)]
        rw [if_neg (fun hc => hid hc.1), add_zero]
        by_cases hX : serase key ((alookup acc.1.profileIDToEndpointKeys pid).getD []) = []
        · by_cases hmem : pid ∈ rest
          · rw [if_pos ⟨hmem, hX⟩, if_pos ⟨List.mem_cons.mpr (Or.inr hmem), hX⟩]
          · rw [if_neg (fun hc => hmem hc.1),
              if_neg (fun hc =>
                (List.mem_cons.mp hc.1).elim (fun he => hid he.symm) hmem)]
        · rw [if_neg (fun hc => hX hc.2), if_neg (fun hc => hX hc.2)]

/-- C4: one rule update addressed to a profile ID is emitted by
updateEndpoint exactly when the ID is added while its set of referencing
endpoints was empty (profile activated) or removed while its set of
referencing endpoints becomes empty (profile deactivated); IDs that do not
cross that boundary emit nothing.  The well-formedness hypothesis, that
recorded sets are never empty, holds in every reachable state. -/
theorem updateEndpoint_profile_activation (s : ArcState) (key : EndpointKey)
    (newIds : List String) (pid : String)
    (hwf : ∀ pid2 l, alookup s.profileIDToEndpointKeys pid2 = some l → l ≠ []) :
    profUpdCount pid (updateEndpoint s key newIds).2 =
      (if pid ∈ newIds ∧ pid ∉ msProfileIDs s.endpointKeyToProfileIDs key
          ∧ (alookup s.profileIDToEndpointKeys pid).getD [] = [] then 1
       else if pid ∈ msProfileIDs s.endpointKeyToProfileIDs key ∧ pid ∉ newIds
          ∧ serase key ((alookup s.profileIDToEndpointKeys pid).getD []) = [] then 1
       else 0) := by
  have h1 : updateEndpoint s key newIds
      = ((msProfileIDs s.endpointKeyToProfileIDs key).dedup.filter
          (fun i => i ∉ newIds.dedup)).foldl (removeProfileStep key)
          ((newIds.dedup.filter
            (fun i => i ∉ (msProfileIDs s.endpointKeyToProfileIDs key).dedup)).foldl
            (addProfileStep key)
            ({ s with endpointKeyToProfileIDs :=
                ⟨if newIds.isEmpty then aerase s.endpointKeyToProfileIDs.m key
                 else ainsert s.endpointKeyToProfileIDs.m key newIds⟩ }, [])) := rfl
  set addedL := newIds.dedup.filter
      (fun i => i ∉ (msProfileIDs s.endpointKeyToProfileIDs key).dedup) with haddedL
  set removedL := (msProfileIDs s.endpointKeyToProfileIDs key).dedup.filter
      (fun i => i ∉ newIds.dedup) with hremovedL
  set s0p : ArcState × List Event := ({ s with endpointKeyToProfileIDs :=
      ⟨if newIds.isEmpty then aerase s.endpointKeyToProfileIDs.m key
       else ainsert s.endpointKeyToProfileIDs.m key newIds⟩ }, []) with hs0p
  have hndR : removedL.Nodup := List.Nodup.filter _ (List.nodup_dedup _)
  have hA_iff : pid ∈ addedL ↔
      (pid ∈ newIds ∧ pid ∉ msProfileIDs s.endpointKeyToProfileIDs key) := by
    rw [haddedL]
    simp [List.mem_filter, List.mem_dedup]
  have hR_iff : pid ∈ removedL ↔
      (pid ∈ msProfileIDs s.endpointKeyToProfileIDs key ∧ pid ∉ newIds) := by
    rw [hremovedL]
    simp [List.mem_filter, List.mem_dedup]
  have h2 : profUpdCount pid s0p.2 = 0 := rfl
  have h3 : alookup s0p.1.profileIDToEndpointKeys pid
      = alookup s.profileIDToEndpointKeys pid := rfl
  rw [h1, profUpdCount_removeFold _ _ _ _ hndR, profUpdCount_addFold, h2, h3, zero_add]
  by_cases hR : pid ∈ removedL
  · obtain ⟨holdmem, hnew⟩ := hR_iff.mp hR
    have hA : pid ∉ addedL := fun hc => hnew (hA_iff.mp hc).1
    rw [if_neg (fun hc => hA hc.1), zero_add,
      addFold_entry_other key addedL s0p pid hA, h3]
    by_cases hser : serase key ((alookup s.profileIDToEndpointKeys pid).getD []) = []
    · rw [if_pos ⟨hR, hser⟩, if_neg (fun hc => hnew hc.1), if_pos ⟨holdmem, hnew, hser⟩]
    · rw [if_neg (fun hc => hser hc.2), if_neg (fun hc => hnew hc.1),
        if_neg (fun hc => hser hc.2.2)]
  · have hcondR : ¬ (pid ∈ removedL ∧
        serase key ((alookup (addedL.foldl (addProfileStep key)
          s0p).1.profileIDToEndpointKeys pid).getD []) = []) :=
      fun hc => hR hc.1
    rw [if_neg hcondR, add_zero]
    by_cases hA : pid ∈ addedL
    · obtain ⟨hnewmem, hnold⟩ := hA_iff.mp hA
      cases hlook : alookup s.profileIDToEndpointKeys pid with
      | none =>
          rw [if_pos ⟨hA, rfl⟩, if_pos ⟨hnewmem, hnold, rfl⟩]
      | some l =>
          have hlne : l ≠ [] := hwf pid l hlook
          rw [if_neg (fun hc => Option.noConfusion hc.2),
            if_neg (fun hc => hlne hc.2.2), if_neg (fun hc => hnold hc.1)]
    · have hfirst : ¬ (pid ∈ newIds ∧ pid ∉ msProfileIDs s.endpointKeyToProfileIDs key
          ∧ (alookup s.profileIDToEndpointKeys pid).getD [] = []) :=
        fun hc => hA (hA_iff.mpr ⟨hc.1, hc.2.1⟩)
      have hsecond : ¬ (pid ∈ msProfileIDs s.endpointKeyToProfileIDs key ∧ pid ∉ newIds
          ∧ serase key ((alookup s.profileIDToEndpointKeys pid).getD []) = []) :=
        fun hc => hR (hR_iff.mpr ⟨hc.1, hc.2.1⟩)
      rw [if_neg (fun hc => hA hc.1), if_neg hfirst, if_neg hsecond]

/-- Witness for C4: adding an endpoint that newly references one profile
emits exactly one rule update for that profile. -/
theorem updateEndpoint_profile_activation_witness :
    profUpdCount "pr1" (updateEndpoint initialArc (.host ⟨"h", "e"⟩) ["pr1"]).2 = 1 := by
  have h := updateEndpoint_profile_activation initialArc (.host ⟨"h", "e"⟩) ["pr1"] "pr1"
    (fun pid2 l hl => by simp [initialArc, alookup] at hl)
  rw [h]
  decide

theorem sha224_length (msg : List Nat) : (sha224 msg).length = 28 := by
  simp [sha224, wordBytes]

theorem b64EncodeRaw_length : ∀ l : List Nat, (b64EncodeRaw l).length = (4 * l.length + 2) / 3
  | [] => rfl
  | [_] => by simp [b64EncodeRaw]
  | [_, _] => by simp [b64EncodeRaw]
  | b1 :: b2 :: b3 :: rest => by
      simp only [b64EncodeRaw, List.length_cons, b64EncodeRaw_length rest]
      omega

theorem b64Char_mem (n : Nat) : b64Char n ∈ b64Table := by
  have h : n % 64 < 64 := Nat.mod_lt _ (by norm_num)
  have hall : ∀ m, m < 64 → b64Table.getD m 'A' ∈ b64Table := by decide
  exact hall _ h

theorem b64EncodeRaw_mem : ∀ (l : List Nat) (c : Char), c ∈ b64EncodeRaw l → c ∈ b64Table
  | [], c, h => absurd h (by simp [b64EncodeRaw])
  | [b1], c, h => by
      simp only [b64EncodeRaw, List.mem_cons, List.not_mem_nil, or_false] at h
      rcases h with rfl | rfl <;> exact b64Char_mem _
  | [b1, b2], c, h => by
      simp only [b64EncodeRaw, List.mem_cons, List.not_mem_nil, or_false] at h
      rcases h with rfl | rfl | rfl <;> exact b64Char_mem _
  | b1 :: b2 :: b3 :: rest, c, h => by
      simp only [b64EncodeRaw, List.mem_cons] at h
      rcases h with rfl | rfl | rfl | rfl | h
      · exact b64Char_mem _
      · exact b64Char_mem _
      · exact b64Char_mem _
      · exact b64Char_mem _
      · exact b64EncodeRaw_mem rest c h

/-- The UID of the All selector, computed by the model, equals the fixture
pinned by the repository test suite. -/
theorem uidAll_eq_fixture :
    uniqueId Selector.all = "s:5y5I3VdRZfDU01O--xXAPx2yxCQQqMf0M6IWug" := by rfl

/-- Counterexample to C6 as stated: the UID of the parsed empty selector is
exactly the 40-character fixture pinned by the repository test suite, so its
total length is 40, not 28, and no truncation to a 26-character body
happens. -/
theorem uid_length_28_counterexample :
    parse "" = .ok Selector.all
    ∧ uniqueId Selector.all = "s:5y5I3VdRZfDU01O--xXAPx2yxCQQqMf0M6IWug"
    ∧ (uniqueId Selector.all).length = 40
    ∧ ¬ (uniqueId Selector.all).length = 28 := by
  refine ⟨rfl, uidAll_eq_fixture, ?_, ?_⟩
  · rw [uidAll_eq_fixture]
    decide
  · rw [uidAll_eq_fixture]
    decide

/-- C6 amended: for every selector, the UID is printable ASCII of total
length 40: the prefix s: followed by a 38-character body drawn from the
URL-safe base64 alphabet, the full untruncated base64url-no-pad encoding of
the SHA-224 digest of the s:-prefixed canonical text; the UID of the parsed
empty selector equals the fixture of the repository test suite. -/
theorem uid_format_amended (t : Selector) :
    ((uniqueId t).length = 40
      ∧ ∃ body : List Char,
          uniqueId t = "s:" ++ String.mk body
          ∧ body.length = 38
          ∧ ∀ c ∈ body, c ∈ b64Table)
    ∧ (∀ c ∈ (uniqueId t).data, 32 ≤ c.toNat ∧ c.toNat ≤ 126)
    ∧ parse "" = .ok Selector.all
    ∧ uniqueId Selector.all = "s:5y5I3VdRZfDU01O--xXAPx2yxCQQqMf0M6IWug" := by
  have hb_len : (b64EncodeRaw (sha224 (strBytes ("s:" ++ selToString t)))).length = 38 := by
    rw [b64EncodeRaw_length, sha224_length]
  have hid : uniqueId t
      = "s:" ++ String.mk (b64EncodeRaw (sha224 (strBytes ("s:" ++ selToString t)))) := rfl
  have htab : ∀ c ∈ b64Table, 32 ≤ c.toNat ∧ c.toNat ≤ 126 := by decide
  have h38 : (String.mk (b64EncodeRaw (sha224 (strBytes ("s:" ++ selToString t))))).length
      = 38 := hb_len
  refine ⟨⟨?_, _, hid, hb_len, fun c hc => b64EncodeRaw_mem _ c hc⟩, ?_, rfl,
    uidAll_eq_fixture⟩
  · rw [hid, String.length_append, h38]
    decide
  · intro c hc
    rw [hid] at hc
    have hsd : ("s:" : String).data = ['s', ':'] := rfl
    rw [String.data_append, hsd] at hc
    rcases List.mem_append.mp hc with h2 | h2
    · rcases List.mem_cons.mp h2 with rfl | h3
      · decide
      · rcases List.mem_cons.mp h3 with rfl | h4
        · decide
        · cases h4
    · exact htab c (b64EncodeRaw_mem _ c h2)

theorem polMem_ext {s t : ArcState}
    (h : s.policyIDToEndpointKeys = t.policyIDToEndpointKeys) :
    ∀ pk e, polMem s pk e = polMem t pk e := by
  intro pk e
  unfold polMem
  rw [h]

theorem profMem_ext {s t : ArcState}
    (h : s.profileIDToEndpointKeys = t.profileIDToEndpointKeys) :
    ∀ pid e, profMem s pid e = profMem t pid e := by
  intro pid e
  unfold profMem
  rw [h]

theorem polMem_onMatchStarted (s : ArcState) (pk : PolicyKey) (e : EndpointKey)
    (pk2 : PolicyKey) (e2 : EndpointKey) :
    polMem (onMatchStarted s pk e).1 pk2 e2
      = if pk2 = pk ∧ e2 = e then true else polMem s pk2 e2 := by
  cases h : alookup s.policyIDToEndpointKeys pk with
  | none =>
      by_cases hpk : pk2 = pk
      · subst hpk
        by_cases he : e2 = e
        · subst he
          simp [onMatchStarted, h, polMem, alookup_ainsert, mem_sinsert]
        · simp [onMatchStarted, h, polMem, alookup_ainsert, mem_sinsert, he]
      · simp [onMatchStarted, h, polMem, alookup_ainsert, hpk]
  | some keys =>
      by_cases hpk : pk2 = pk
      · subst hpk
        by_cases he : e2 = e
        · subst he
          simp [onMatchStarted, h, polMem, alookup_ainsert, mem_sinsert]
        · simp [onMatchStarted, h, polMem, alookup_ainsert, mem_sinsert, he]
      · simp [onMatchStarted, h, polMem, alookup_ainsert, hpk]

theorem polMem_onMatchStopped (s : ArcState) (pk : PolicyKey) (e : EndpointKey)
    (pk2 : PolicyKey) (e2 : EndpointKey) :
    polMem (onMatchStopped s pk e).1 pk2 e2
      = if pk2 = pk ∧ e2 = e then false else polMem s pk2 e2 := by
  by_cases hemp : (serase e ((alookup s.policyIDToEndpointKeys pk).getD [])).isEmpty
  · have hnil : serase e ((alookup s.policyIDToEndpointKeys pk).getD []) = [] := by
      simpa [List.isEmpty_iff] using hemp
    by_cases hpk : pk2 = pk
    · subst hpk
      have hsub : ∀ x ∈ (alookup s.policyIDToEndpointKeys pk2).getD [], x = e := by
        intro x hx
        by_contra hne
        have : x ∈ serase e ((alookup s.policyIDToEndpointKeys pk2).getD []) :=
          (mem_serase x e _).mpr ⟨hx, hne⟩
        rw [hnil] at this
        cases this
      by_cases he : e2 = e
      · subst he
        simp [onMatchStopped, hemp, polMem, alookup_aerase]
      · have hmm : polMem s pk2 e2 = false := by
          unfold polMem
          cases hl : alookup s.policyIDToEndpointKeys pk2 with
          | none => rfl
          | some l =>
              simp only [decide_eq_false_iff_not]
              intro hmem
              exact he (hsub e2 (by rw [hl]; exact hmem))
        simp only [onMatchStopped, hemp, if_true, true_and]
        rw [if_neg he]
        simpa [polMem, alookup_aerase] using hmm
    · simp [onMatchStopped, hemp, polMem, alookup_aerase, hpk]
  · have hlook : ∃ keys, alookup s.policyIDToEndpointKeys pk = some keys := by
      cases hl : alookup s.policyIDToEndpointKeys pk with
      | none => simp [hl, serase] at hemp
      | some keys => exact ⟨keys, rfl⟩
    obtain ⟨keys, hkeys⟩ := hlook
    have hne : serase e keys ≠ [] := by
      intro hc
      rw [hkeys] at hemp
      simp only [Option.getD_some] at hemp
      rw [hc] at hemp
      simp at hemp
    by_cases hpk : pk2 = pk
    · subst hpk
      by_cases he : e2 = e
      · subst he
        simp [onMatchStopped, hkeys, hne, polMem, alookup_ainsert, mem_serase]
      · simp [onMatchStopped, hkeys, hne, polMem, alookup_ainsert, mem_serase, he]
    · simp [onMatchStopped, hkeys, hne, polMem, alookup_ainsert, hpk]

theorem onMatchStarted_nonempty (s : ArcState) (pk : PolicyKey) (e : EndpointKey)
    (h : ∀ pk2 l, alookup s.policyIDToEndpointKeys pk2 = some l → l ≠ []) :
    ∀ pk2 l, alookup (onMatchStarted s pk e).1.policyIDToEndpointKeys pk2 = some l →
      l ≠ [] := by
  intro pk2 l hl
  cases hlook : alookup s.policyIDToEndpointKeys pk with
  | none =>
      rw [onMatchStarted] at hl
      simp only [hlook, alookup_ainsert] at hl
      by_cases hpk : pk2 = pk
      · simp only [hpk, if_true] at hl
        cases hl
        exact sinsert_ne_nil e []
      · simp only [hpk, if_false] at hl
        exact h pk2 l hl
  | some keys =>
      rw [onMatchStarted] at hl
      simp only [hlook, alookup_ainsert] at hl
      by_cases hpk : pk2 = pk
      · simp only [hpk, if_true] at hl
        cases hl
        exact sinsert_ne_nil e keys
      · simp only [hpk, if_false] at hl
        exact h pk2 l hl

theorem onMatchStopped_nonempty (s : ArcState) (pk : PolicyKey) (e : EndpointKey)
    (h : ∀ pk2 l, alookup s.policyIDToEndpointKeys pk2 = some l → l ≠ []) :
    ∀ pk2 l, alookup (onMatchStopped s pk e).1.policyIDToEndpointKeys pk2 = some l →
      l ≠ [] := by
  intro pk2 l hl
  by_cases hemp : (serase e ((alookup s.policyIDToEndpointKeys pk).getD [])).isEmpty
  · rw [onMatchStopped] at hl
    simp only [hemp, if_true, alookup_aerase] at hl
    by_cases hpk : pk2 = pk
    · simp only [hpk, if_true] at hl
      cases hl
    · simp only [hpk, if_false] at hl
      exact h pk2 l hl
  · rw [onMatchStopped] at hl
    simp only [hemp, Bool.false_eq_true, if_false, alookup_ainsert] at hl
    by_cases hpk : pk2 = pk
    · simp only [hpk, if_true] at hl
      cases hl
      intro hc
      rw [hc] at hemp
      simp at hemp
    · simp only [hpk, if_false] at hl
      exact h pk2 l hl

theorem polMem_applyDelta (s : ArcState) (d : Delta) (pk2 : PolicyKey) (e2 : EndpointKey) :
    polMem (applyDelta s d).1 pk2 e2
      = if pk2 = d.sid ∧ e2 = d.ekey then d.started else polMem s pk2 e2 := by
  unfold applyDelta
  by_cases hd : d.started = true
  · simp only [hd, if_true]
    rw [polMem_onMatchStarted]
  · have hf : d.started = false := Bool.eq_false_iff.mpr hd
    rw [hf]
    simp only [Bool.false_eq_true, if_false]
    rw [polMem_onMatchStopped]

theorem polMem_applyDeltas_mem (ds : List Delta) (s : ArcState) (pk : PolicyKey)
    (e : EndpointKey)
    (hnd : (ds.map (fun d => (d.sid, d.ekey))).Nodup) :
    ((⟨true, pk, e⟩ : Delta) ∈ ds → polMem (applyDeltas s ds).1 pk e = true)
    ∧ ((⟨false, pk, e⟩ : Delta) ∈ ds → polMem (applyDeltas s ds).1 pk e = false)
    ∧ ((∀ b, (⟨b, pk, e⟩ : Delta) ∉ ds) → polMem (applyDeltas s ds).1 pk e = polMem s pk e) := by
  induction ds generalizing s with
  | nil =>
      refine ⟨fun h => absurd h (List.not_mem_nil _), fun h => absurd h (List.not_mem_nil _),
        fun _ => rfl⟩
  | cons d rest ih =>
      have hnd2 : (rest.map (fun d => (d.sid, d.ekey))).Nodup := (List.nodup_cons.mp hnd).2
      have hdpair : (d.sid, d.ekey) ∉ rest.map (fun d => (d.sid, d.ekey)) :=
        (List.nodup_cons.mp hnd).1
      have hstep : applyDeltas s (d :: rest)
          = ((applyDeltas (applyDelta s d).1 rest).1,
             (applyDelta s d).2 ++ (applyDeltas (applyDelta s d).1 rest).2) := by
        simp [applyDeltas]
      obtain ⟨ih1, ih2, ih3⟩ := ih (applyDelta s d).1 hnd2
      refine ⟨?_, ?_, ?_⟩
      · intro hmem
        rw [hstep]
        rcases List.mem_cons.mp hmem with heq | hmem2
        · have hpair : d.sid = pk ∧ d.ekey = e ∧ d.started = true := by
            rw [← heq]
            exact ⟨rfl, rfl, rfl⟩
          have hnr : ∀ b, (⟨b, pk, e⟩ : Delta) ∉ rest := by
            intro b hb
            apply hdpair
            rw [hpair.1, hpair.2.1]
            exact List.mem_map.mpr ⟨⟨b, pk, e⟩, hb, rfl⟩
          rw [ih3 hnr, polMem_applyDelta, if_pos ⟨hpair.1.symm, hpair.2.1.symm⟩, hpair.2.2]
        · exact ih1 hmem2
      · intro hmem
        rw [hstep]
        rcases List.mem_cons.mp hmem with heq | hmem2
        · have hpair : d.sid = pk ∧ d.ekey = e ∧ d.started = false := by
            rw [← heq]
            exact ⟨rfl, rfl, rfl⟩
          have hnr : ∀ b, (⟨b, pk, e⟩ : Delta) ∉ rest := by
            intro b hb
            apply hdpair
            rw [hpair.1, hpair.2.1]
            exact List.mem_map.mpr ⟨⟨b, pk, e⟩, hb, rfl⟩
          rw [ih3 hnr, polMem_applyDelta, if_pos ⟨hpair.1.symm, hpair.2.1.symm⟩, hpair.2.2]
        · exact ih2 hmem2
      · intro hnone
        rw [hstep]
        have hdne : ¬ (pk = d.sid ∧ e = d.ekey) := by
          rintro ⟨rfl, rfl⟩
          exact hnone d.started (List.mem_cons.mpr (Or.inl rfl))
        have hnr : ∀ b, (⟨b, pk, e⟩ : Delta) ∉ rest :=
          fun b hb => hnone b (List.mem_cons.mpr (Or.inr hb))
        rw [ih3 hnr, polMem_applyDelta, if_neg hdne]

theorem applyDeltas_nonempty (ds : List Delta) (s : ArcState)
    (h : ∀ pk2 l, alookup s.policyIDToEndpointKeys pk2 = some l → l ≠ []) :
    ∀ pk2 l, alookup (applyDeltas s ds).1.policyIDToEndpointKeys pk2 = some l → l ≠ [] := by
  induction ds generalizing s with
  | nil => exact h
  | cons d rest ih =>
      have hstep : (applyDeltas s (d :: rest)).1 = (applyDeltas (applyDelta s d).1 rest).1 := by
        simp [applyDeltas]
      rw [hstep]
      apply ih
      unfold applyDelta
      by_cases hd : d.started = true
      · simp only [hd, if_true]
        exact onMatchStarted_nonempty s d.sid d.ekey h
      · simp only [hd, Bool.false_eq_true, if_false]
        exact onMatchStopped_nonempty s d.sid d.ekey h

theorem profMem_addProfileStep (key : EndpointKey) (acc : ArcState × List Event)
    (id pid2 : String) (e2 : EndpointKey) :
    profMem (addProfileStep key acc id).1 pid2 e2
      = if pid2 = id ∧ e2 = key then true else profMem acc.1 pid2 e2 := by
  obtain ⟨st, evs⟩ := acc
  unfold addProfileStep
  cases h : alookup st.profileIDToEndpointKeys id with
  | none =>
      by_cases hpid : pid2 = id
      · subst hpid
        by_cases he : e2 = key
        · subst he
          simp [h, profMem, alookup_ainsert, mem_sinsert]
        · simp [h, profMem, alookup_ainsert, mem_sinsert, he]
      · simp [h, profMem, alookup_ainsert, hpid]
  | some keys =>
      by_cases hpid : pid2 = id
      · subst hpid
        by_cases he : e2 = key
        · subst he
          simp [h, profMem, alookup_ainsert, mem_sinsert]
        · simp [h, profMem, alookup_ainsert, mem_sinsert, he]
      · simp [h, profMem, alookup_ainsert, hpid]

theorem profMem_removeProfileStep (key : EndpointKey) (acc : ArcState × List Event)
    (id pid2 : String) (e2 : EndpointKey) :
    profMem (removeProfileStep key acc id).1 pid2 e2
      = if pid2 = id ∧ e2 = key then false else profMem acc.1 pid2 e2 := by
  obtain ⟨st, evs⟩ := acc
  unfold removeProfileStep
  by_cases hemp : (serase key ((alookup st.profileIDToEndpointKeys id).getD [])).isEmpty
  · have hnil : serase key ((alookup st.profileIDToEndpointKeys id).getD []) = [] := by
      simpa [List.isEmpty_iff] using hemp
    have hsub : ∀ x ∈ (alookup st.profileIDToEndpointKeys id).getD [], x = key := by
      intro x hx
      by_contra hne
      have : x ∈ serase key ((alookup st.profileIDToEndpointKeys id).getD []) :=
        (mem_serase x key _).mpr ⟨hx, hne⟩
      rw [hnil] at this
      cases this
    by_cases hpid : pid2 = id
    · subst hpid
      by_cases he : e2 = key
      · subst he
        simp [hemp, profMem, alookup_aerase]
      · have hmm : profMem st pid2 e2 = false := by
          unfold profMem
          cases hl : alookup st.profileIDToEndpointKeys pid2 with
          | none => rfl
          | some l =>
              simp only [decide_eq_false_iff_not]
              intro hmem
              exact he (hsub e2 (by rw [hl]; exact hmem))
        simp only [hemp, if_true, true_and]
        rw [if_neg he]
        simpa [profMem, alookup_aerase] using hmm
    · simp [hemp, profMem, alookup_aerase, hpid]
  · have hlook : ∃ keys, alookup st.profileIDToEndpointKeys id = some keys := by
      cases hl : alookup st.profileIDToEndpointKeys id with
      | none => simp [hl, serase] at hemp
      | some keys => exact ⟨keys, rfl⟩
    obtain ⟨keys, hkeys⟩ := hlook
    have hne : serase key keys ≠ [] := by
      intro hc
      rw [hkeys] at hemp
      simp only [Option.getD_some] at hemp
      rw [hc] at hemp
      simp at hemp
    by_cases hpid : pid2 = id
    · subst hpid
      by_cases he : e2 = key
      · subst he
        simp [hkeys, hne, profMem, alookup_ainsert, mem_serase]
      · simp [hkeys, hne, profMem, alookup_ainsert, mem_serase, he]
    · simp [hkeys, hne, profMem, alookup_ainsert, hpid]

theorem profMem_addFold (key : EndpointKey) (l : List String)
    (acc : ArcState × List Event) (pid2 : String) (e2 : EndpointKey) :
    profMem ((l.foldl (addProfileStep key) acc).1) pid2 e2
      = if pid2 ∈ l ∧ e2 = key then true else profMem acc.1 pid2 e2 := by
  induction l generalizing acc with
  | nil => simp
  | cons id rest ih =>
      rw [List.foldl_cons, ih, profMem_addProfileStep]
      by_cases he : e2 = key
      · by_cases hid : pid2 = id
        · subst hid
          subst he
          simp [List.mem_cons]
        · by_cases hmem : pid2 ∈ rest
          · rw [if_pos ⟨hmem, he⟩, if_pos ⟨List.mem_cons.mpr (Or.inr hmem), he⟩]
          · rw [if_neg (fun hc => hmem hc.1), if_neg (fun hc => hid hc.1),
              if_neg (fun hc => (List.mem_cons.mp hc.1).elim hid hmem)]
      · rw [if_neg (fun hc => he hc.2), if_neg (fun hc => he hc.2),
          if_neg (fun hc => he hc.2)]

theorem profMem_removeFold (key : EndpointKey) (l : List String)
    (acc : ArcState × List Event) (pid2 : String) (e2 : EndpointKey) :
    profMem ((l.foldl (removeProfileStep key) acc).1) pid2 e2
      = if pid2 ∈ l ∧ e2 = key then false else profMem acc.1 pid2 e2 := by
  induction l generalizing acc with
  | nil => simp
  | cons id rest ih =>
      rw [List.foldl_cons, ih, profMem_removeProfileStep]
      by_cases he : e2 = key
      · by_cases hid : pid2 = id
        · subst hid
          subst he
          simp [List.mem_cons]
        · by_cases hmem : pid2 ∈ rest
          · rw [if_pos ⟨hmem, he⟩, if_pos ⟨List.mem_cons.mpr (Or.inr hmem), he⟩]
          · rw [if_neg (fun hc => hmem hc.1), if_neg (fun hc => hid hc.1),
              if_neg (fun hc => (List.mem_cons.mp hc.1).elim hid hmem)]
      · rw [if_neg (fun hc => he hc.2), if_neg (fun hc => he hc.2),
          if_neg (fun hc => he hc.2)]

theorem addProfileStep_nonempty (key : EndpointKey) (acc : ArcState × List Event)
    (id : String)
    (h : ∀ pid l, alookup acc.1.profileIDToEndpointKeys pid = some l → l ≠ []) :
    ∀ pid l, alookup (addProfileStep key acc id).1.profileIDToEndpointKeys pid = some l →
      l ≠ [] := by
  intro pid l hl
  obtain ⟨st, evs⟩ := acc
  unfold addProfileStep at hl
  cases hlook : alookup st.profileIDToEndpointKeys id with
  | none =>
      simp only [hlook, alookup_ainsert] at hl
      by_cases hpid : pid = id
      · simp only [hpid, if_true] at hl
        cases hl
        exact sinsert_ne_nil key []
      · simp only [hpid, if_false] at hl
        exact h pid l hl
  | some keys =>
      simp only [hlook, alookup_ainsert] at hl
      by_cases hpid : pid = id
      · simp only [hpid, if_true] at hl
        cases hl
        exact sinsert_ne_nil key keys
      · simp only [hpid, if_false] at hl
        exact h pid l hl

theorem removeProfileStep_nonempty (key : EndpointKey) (acc : ArcState × List Event)
    (id : String)
    (h : ∀ pid l, alookup acc.1.profileIDToEndpointKeys pid = some l → l ≠ []) :
    ∀ pid l, alookup (removeProfileStep key acc id).1.profileIDToEndpointKeys pid = some l →
      l ≠ [] := by
  intro pid l hl
  obtain ⟨st, evs⟩ := acc
  unfold removeProfileStep at hl
  by_cases hemp : (serase key ((alookup st.profileIDToEndpointKeys id).getD [])).isEmpty
  · simp only [hemp, if_true, alookup_aerase] at hl
    by_cases hpid : pid = id
    · simp only [hpid, if_true] at hl
      cases hl
    · simp only [hpid, if_false] at hl
      exact h pid l hl
  · simp only [hemp, Bool.false_eq_true, if_false, alookup_ainsert] at hl
    by_cases hpid : pid = id
    · simp only [hpid, if_true] at hl
      cases hl
      intro hc
      rw [hc] at hemp
      simp at hemp
    · simp only [hpid, if_false] at hl
      exact h pid l hl

theorem addFold_nonempty (key : EndpointKey) (l : List String)
    (acc : ArcState × List Event)
    (h : ∀ pid l2, alookup acc.1.profileIDToEndpointKeys pid = some l2 → l2 ≠ []) :
    ∀ pid l2,
      alookup ((l.foldl (addProfileStep key) acc).1).profileIDToEndpointKeys pid = some l2 →
        l2 ≠ [] := by
  induction l generalizing acc with
  | nil => exact h
  | cons id rest ih =>
      rw [List.foldl_cons]
      exact ih _ (addProfileStep_nonempty key acc id h)

theorem removeFold_nonempty (key : EndpointKey) (l : List String)
    (acc : ArcState × List Event)
    (h : ∀ pid l2, alookup acc.1.profileIDToEndpointKeys pid = some l2 → l2 ≠ []) :
    ∀ pid l2,
      alookup ((l.foldl (removeProfileStep key) acc).1).profileIDToEndpointKeys pid
          = some l2 → l2 ≠ [] := by
  induction l generalizing acc with
  | nil => exact h
  | cons id rest ih =>
      rw [List.foldl_cons]
      exact ih _ (removeProfileStep_nonempty key acc id h)

theorem addProfileStep_frame (key : EndpointKey) (acc : ArcState × List Event) (id : String) :
    (addProfileStep key acc id).1.allPolicies = acc.1.allPolicies
    ∧ (addProfileStep key acc id).1.allProfileRules = acc.1.allProfileRules
    ∧ (addProfileStep key acc id).1.policyIDToEndpointKeys = acc.1.policyIDToEndpointKeys
    ∧ (addProfileStep key acc id).1.labelIndex = acc.1.labelIndex
    ∧ (addProfileStep key acc id).1.endpointKeyToProfileIDs = acc.1.endpointKeyToProfileIDs := by
  obtain ⟨st, evs⟩ := acc
  unfold addProfileStep
  cases hlook : alookup st.profileIDToEndpointKeys id <;> simp [hlook]

theorem removeProfileStep_frame (key : EndpointKey) (acc : ArcState × List Event)
    (id : String) :
    (removeProfileStep key acc id).1.allPolicies = acc.1.allPolicies
    ∧ (removeProfileStep key acc id).1.allProfileRules = acc.1.allProfileRules
    ∧ (removeProfileStep key acc id).1.policyIDToEndpointKeys = acc.1.policyIDToEndpointKeys
    ∧ (removeProfileStep key acc id).1.labelIndex = acc.1.labelIndex
    ∧ (removeProfileStep key acc id).1.endpointKeyToProfileIDs
        = acc.1.endpointKeyToProfileIDs := by
  obtain ⟨st, evs⟩ := acc
  unfold removeProfileStep
  by_cases hemp : (serase key ((alookup st.profileIDToEndpointKeys id).getD [])).isEmpty <;>
    simp [hemp]

theorem addFold_frame (key : EndpointKey) (l : List String) (acc : ArcState × List Event) :
    ((l.foldl (addProfileStep key) acc).1.allPolicies = acc.1.allPolicies)
    ∧ ((l.foldl (addProfileStep key) acc).1.allProfileRules = acc.1.allProfileRules)
    ∧ ((l.foldl (addProfileStep key) acc).1.policyIDToEndpointKeys
        = acc.1.policyIDToEndpointKeys)
    ∧ ((l.foldl (addProfileStep key) acc).1.labelIndex = acc.1.labelIndex)
    ∧ ((l.foldl (addProfileStep key) acc).1.endpointKeyToProfileIDs
        = acc.1.endpointKeyToProfileIDs) := by
  induction l generalizing acc with
  | nil => exact ⟨rfl, rfl, rfl, rfl, rfl⟩
  | cons id rest ih =>
      obtain ⟨h1, h2, h3, h4, h5⟩ := addProfileStep_frame key acc id
      obtain ⟨g1, g2, g3, g4, g5⟩ := ih (addProfileStep key acc id)
      rw [List.foldl_cons]
      exact ⟨g1.trans h1, g2.trans h2, g3.trans h3, g4.trans h4, g5.trans h5⟩

theorem removeFold_frame (key : EndpointKey) (l : List String) (acc : ArcState × List Event) :
    ((l.foldl (removeProfileStep key) acc).1.allPolicies = acc.1.allPolicies)
    ∧ ((l.foldl (removeProfileStep key) acc).1.allProfileRules = acc.1.allProfileRules)
    ∧ ((l.foldl (removeProfileStep key) acc).1.policyIDToEndpointKeys
        = acc.1.policyIDToEndpointKeys)
    ∧ ((l.foldl (removeProfileStep key) acc).1.labelIndex = acc.1.labelIndex)
    ∧ ((l.foldl (removeProfileStep key) acc).1.endpointKeyToProfileIDs
        = acc.1.endpointKeyToProfileIDs) := by
  induction l generalizing acc with
  | nil => exact ⟨rfl, rfl, rfl, rfl, rfl⟩
  | cons id rest ih =>
      obtain ⟨h1, h2, h3, h4, h5⟩ := removeProfileStep_frame key acc id
      obtain ⟨g1, g2, g3, g4, g5⟩ := ih (removeProfileStep key acc id)
      rw [List.foldl_cons]
      exact ⟨g1.trans h1, g2.trans h2, g3.trans h3, g4.trans h4, g5.trans h5⟩

theorem updateEndpoint_unfold (s : ArcState) (key : EndpointKey) (newIds : List String) :
    updateEndpoint s key newIds
      = ((msProfileIDs s.endpointKeyToProfileIDs key).dedup.filter
          (fun i => i ∉ newIds.dedup)).foldl (removeProfileStep key)
          ((newIds.dedup.filter
            (fun i => i ∉ (msProfileIDs s.endpointKeyToProfileIDs key).dedup)).foldl
            (addProfileStep key)
            ({ s with endpointKeyToProfileIDs :=
                ⟨if newIds.isEmpty then aerase s.endpointKeyToProfileIDs.m key
                 else ainsert s.endpointKeyToProfileIDs.m key newIds⟩ }, [])) := rfl

theorem msProfileIDs_update (ms : EndpointKeyToProfileIDMap) (e : EndpointKey)
    (newIds : List String) (e2 : EndpointKey) :
    msProfileIDs ⟨if newIds.isEmpty then aerase ms.m e else ainsert ms.m e newIds⟩ e2
      = if e2 = e then newIds else msProfileIDs ms e2 := by
  unfold msProfileIDs
  by_cases he : e2 = e
  · subst he
    by_cases hemp : newIds.isEmpty
    · have hnil : newIds = [] := by simpa [List.isEmpty_iff] using hemp
      simp [hemp, alookup_aerase, hnil]
    · simp [hemp, alookup_ainsert]
  · by_cases hemp : newIds.isEmpty <;>
      simp [hemp, alookup_aerase, alookup_ainsert, he]

theorem updateEndpoint_frame (s : ArcState) (key : EndpointKey) (newIds : List String) :
    (updateEndpoint s key newIds).1.allPolicies = s.allPolicies
    ∧ (updateEndpoint s key newIds).1.allProfileRules = s.allProfileRules
    ∧ (updateEndpoint s key newIds).1.policyIDToEndpointKeys = s.policyIDToEndpointKeys
    ∧ (updateEndpoint s key newIds).1.labelIndex = s.labelIndex := by
  rw [updateEndpoint_unfold]
  obtain ⟨r1, r2, r3, r4, _⟩ := removeFold_frame key
    ((msProfileIDs s.endpointKeyToProfileIDs key).dedup.filter (fun i => i ∉ newIds.dedup))
    ((newIds.dedup.filter
        (fun i => i ∉ (msProfileIDs s.endpointKeyToProfileIDs key).dedup)).foldl
      (addProfileStep key)
      ({ s with endpointKeyToProfileIDs :=
          ⟨if newIds.isEmpty then aerase s.endpointKeyToProfileIDs.m key
           else ainsert s.endpointKeyToProfileIDs.m key newIds⟩ }, []))
  obtain ⟨a1, a2, a3, a4, _⟩ := addFold_frame key
    (newIds.dedup.filter (fun i => i ∉ (msProfileIDs s.endpointKeyToProfileIDs key).dedup))
    ({ s with endpointKeyToProfileIDs :=
        ⟨if newIds.isEmpty then aerase s.endpointKeyToProfileIDs.m key
         else ainsert s.endpointKeyToProfileIDs.m key newIds⟩ }, [])
  exact ⟨r1.trans a1, r2.trans a2, r3.trans a3, r4.trans a4⟩

theorem updateEndpoint_ms (s : ArcState) (key : EndpointKey) (newIds : List String) :
    (updateEndpoint s key newIds).1.endpointKeyToProfileIDs
      = ⟨if newIds.isEmpty then aerase s.endpointKeyToProfileIDs.m key
         else ainsert s.endpointKeyToProfileIDs.m key newIds⟩ := by
  rw [updateEndpoint_unfold]
  obtain ⟨_, _, _, _, r5⟩ := removeFold_frame key
    ((msProfileIDs s.endpointKeyToProfileIDs key).dedup.filter (fun i => i ∉ newIds.dedup))
    ((newIds.dedup.filter
        (fun i => i ∉ (msProfileIDs s.endpointKeyToProfileIDs key).dedup)).foldl
      (addProfileStep key)
      ({ s with endpointKeyToProfileIDs :=
          ⟨if newIds.isEmpty then aerase s.endpointKeyToProfileIDs.m key
           else ainsert s.endpointKeyToProfileIDs.m key newIds⟩ }, []))
  obtain ⟨_, _, _, _, a5⟩ := addFold_frame key
    (newIds.dedup.filter (fun i => i ∉ (msProfileIDs s.endpointKeyToProfileIDs key).dedup))
    ({ s with endpointKeyToProfileIDs :=
        ⟨if newIds.isEmpty then aerase s.endpointKeyToProfileIDs.m key
         else ainsert s.endpointKeyToProfileIDs.m key newIds⟩ }, [])
  exact r5.trans a5

theorem updateEndpoint_nonempty (s : ArcState) (key : EndpointKey) (newIds : List String)
    (h : ∀ pid l, alookup s.profileIDToEndpointKeys pid = some l → l ≠ []) :
    ∀ pid l, alookup (updateEndpoint s key newIds).1.profileIDToEndpointKeys pid = some l →
      l ≠ [] := by
  rw [updateEndpoint_unfold]
  exact removeFold_nonempty key _ _ (addFold_nonempty key _ _ h)

theorem updateEndpoint_profile_inv (s : ArcState) (key : EndpointKey) (newIds : List String)
    (hInv : ∀ pid e2, profMem s pid e2 = true
      ↔ pid ∈ msProfileIDs s.endpointKeyToProfileIDs e2) :
    ∀ pid e2, profMem (updateEndpoint s key newIds).1 pid e2 = true
      ↔ pid ∈ msProfileIDs (updateEndpoint s key newIds).1.endpointKeyToProfileIDs e2 := by
  intro pid e2
  rw [updateEndpoint_ms, msProfileIDs_update, updateEndpoint_unfold, profMem_removeFold,
    profMem_addFold]
  have hpm : profMem ({ s with endpointKeyToProfileIDs :=
      ⟨if newIds.isEmpty then aerase s.endpointKeyToProfileIDs.m key
       else ainsert s.endpointKeyToProfileIDs.m key newIds⟩ }, ([] : List Event)).1 pid e2
      = profMem s pid e2 := profMem_ext rfl pid e2
  rw [hpm]
  have hRm : pid ∈ (msProfileIDs s.endpointKeyToProfileIDs key).dedup.filter
      (fun i => i ∉ newIds.dedup)
      ↔ (pid ∈ msProfileIDs s.endpointKeyToProfileIDs key ∧ pid ∉ newIds) := by
    simp [List.mem_filter, List.mem_dedup]
  have hAm : pid ∈ newIds.dedup.filter
      (fun i => i ∉ (msProfileIDs s.endpointKeyToProfileIDs key).dedup)
      ↔ (pid ∈ newIds ∧ pid ∉ msProfileIDs s.endpointKeyToProfileIDs key) := by
    simp [List.mem_filter, List.mem_dedup]
  by_cases he : e2 = key
  · subst he
    rw [if_pos rfl]
    by_cases hin : pid ∈ newIds
    · by_cases hold : pid ∈ msProfileIDs s.endpointKeyToProfileIDs e2
      · rw [if_neg (fun hc => (hRm.mp hc.1).2 hin), if_neg (fun hc => (hAm.mp hc.1).2 hold)]
        simp [hInv pid e2, hold, hin]
      · rw [if_neg (fun hc => (hRm.mp hc.1).2 hin), if_pos ⟨hAm.mpr ⟨hin, hold⟩, rfl⟩]
        simp [hin]
    · by_cases hold : pid ∈ msProfileIDs s.endpointKeyToProfileIDs e2
      · rw [if_pos ⟨hRm.mpr ⟨hold, hin⟩, rfl⟩]
        simp [hin]
      · rw [if_neg (fun hc => hold (hRm.mp hc.1).1), if_neg (fun hc => hin (hAm.mp hc.1).1)]
        simp [hInv pid e2, hold, hin]
  · rw [if_neg (fun hc => he hc.2), if_neg (fun hc => he hc.2), if_neg he]
    exact hInv pid e2

theorem map_pair_eta (l : List (PolicyKey × EndpointKey)) (b : Bool) :
    l.map ((fun d : Delta => (d.sid, d.ekey)) ∘ fun p => ⟨b, p.1, p.2⟩) = l := by
  induction l with
  | nil => rfl
  | cons p rest ih =>
      rw [List.map_cons, ih]
      rfl

theorem indexRecompute_spec (st : IndexState) (hnd : st.matchPairs.Nodup) :
    (indexRecompute st).1.matchPairs = computeMatches st
    ∧ (((indexRecompute st).2.map (fun d => (d.sid, d.ekey))).Nodup)
    ∧ (∀ pk e, (⟨true, pk, e⟩ : Delta) ∈ (indexRecompute st).2
        ↔ ((pk, e) ∈ computeMatches st ∧ (pk, e) ∉ st.matchPairs))
    ∧ (∀ pk e, (⟨false, pk, e⟩ : Delta) ∈ (indexRecompute st).2
        ↔ ((pk, e) ∈ st.matchPairs ∧ (pk, e) ∉ computeMatches st))
    ∧ (computeMatches st).Nodup := by
  refine ⟨rfl, ?_, ?_, ?_, ?_⟩
  · have hmap : ((indexRecompute st).2.map (fun d => (d.sid, d.ekey)))
        = st.matchPairs.filter (fun p => p ∉ computeMatches st)
          ++ (computeMatches st).filter (fun p => p ∉ st.matchPairs) := by
      simp only [indexRecompute, List.map_append, List.map_map]
      rw [map_pair_eta, map_pair_eta]
    rw [hmap]
    refine List.Nodup.append (List.Nodup.filter _ hnd) ?_ ?_
    · have : (computeMatches st).Nodup := by
        unfold computeMatches
        exact List.nodup_dedup _
      exact List.Nodup.filter _ this
    · intro p hp hq
      have h1 : p ∉ computeMatches st := by
        have := List.mem_filter.mp hp
        simpa using this.2
      have h2 : p ∈ computeMatches st := (List.mem_filter.mp hq).1
      exact h1 h2
  · intro pk e
    simp [indexRecompute, List.mem_append, List.mem_map, List.mem_filter, Delta.mk.injEq]
  · intro pk e
    simp [indexRecompute, List.mem_append, List.mem_map, List.mem_filter, Delta.mk.injEq]
  · unfold computeMatches
    exact List.nodup_dedup _

theorem applyDeltas_after_recompute (sMid : ArcState) (stCore : IndexState)
    (hlbl : sMid.labelIndex = (indexRecompute stCore).1)
    (hpol : ∀ pk e, polMem sMid pk e = true ↔ (pk, e) ∈ stCore.matchPairs)
    (hwf : ∀ pk l, alookup sMid.policyIDToEndpointKeys pk = some l → l ≠ [])
    (hnd : stCore.matchPairs.Nodup) :
    (∀ pk e, polMem (applyDeltas sMid (indexRecompute stCore).2).1 pk e = true
        ↔ (pk, e) ∈ (applyDeltas sMid (indexRecompute stCore).2).1.labelIndex.matchPairs)
    ∧ (∀ pk l,
        alookup (applyDeltas sMid (indexRecompute stCore).2).1.policyIDToEndpointKeys pk
          = some l → l ≠ [])
    ∧ (applyDeltas sMid (indexRecompute stCore).2).1.labelIndex.matchPairs.Nodup := by
  obtain ⟨hm, hndds, hstart, hstop, hnewnd⟩ := indexRecompute_spec stCore hnd
  have hlblpres : (applyDeltas sMid (indexRecompute stCore).2).1.labelIndex
      = sMid.labelIndex := (applyDeltas_frame _ _).2.2.2.1
  refine ⟨?_, applyDeltas_nonempty _ _ hwf, ?_⟩
  · intro pk e
    rw [hlblpres, hlbl, hm]
    obtain ⟨hp1, hp2, hp3⟩ := polMem_applyDeltas_mem (indexRecompute stCore).2 sMid pk e hndds
    by_cases hnew : (pk, e) ∈ computeMatches stCore
    · by_cases hold : (pk, e) ∈ stCore.matchPairs
      · have hd : ∀ b, (⟨b, pk, e⟩ : Delta) ∉ (indexRecompute stCore).2 := by
          intro b hb
          cases b
          · exact ((hstop pk e).mp hb).2 hnew
          · exact ((hstart pk e).mp hb).2 hold
        rw [hp3 hd, hpol pk e]
        exact iff_of_true hold hnew
      · rw [hp1 ((hstart pk e).mpr ⟨hnew, hold⟩)]
        exact iff_of_true rfl hnew
    · by_cases hold : (pk, e) ∈ stCore.matchPairs
      · rw [hp2 ((hstop pk e).mpr ⟨hold, hnew⟩)]
        exact iff_of_false (by simp) hnew
      · have hd : ∀ b, (⟨b, pk, e⟩ : Delta) ∉ (indexRecompute stCore).2 := by
          intro b hb
          cases b
          · exact hold ((hstop pk e).mp hb).1
          · exact hnew ((hstart pk e).mp hb).1
        rw [hp3 hd, hpol pk e]
        exact iff_of_false hold hnew
  · rw [hlblpres, hlbl, hm]
    exact hnewnd

/-- The inductive invariant of the calculator: the active-policy map mirrors
the recorded match relation of the index, the active-profile map mirrors the
multiset, both active maps store only nonempty endpoint sets, and the
recorded match relation has no duplicates. -/
def Inv (s : ArcState) : Prop :=
  (∀ pk e, polMem s pk e = true ↔ (pk, e) ∈ s.labelIndex.matchPairs)
  ∧ (∀ pk l, alookup s.policyIDToEndpointKeys pk = some l → l ≠ [])
  ∧ (∀ pid e, profMem s pid e = true ↔ pid ∈ msProfileIDs s.endpointKeyToProfileIDs e)
  ∧ (∀ pid l, alookup s.profileIDToEndpointKeys pid = some l → l ≠ [])
  ∧ s.labelIndex.matchPairs.Nodup

theorem Inv_initialArc : Inv initialArc := by
  refine ⟨?_, ?_, ?_, ?_, ?_⟩
  · intro pk e
    simp [polMem, initialArc, emptyIndex, alookup]
  · intro pk l hl
    simp [initialArc, alookup] at hl
  · intro pid e
    simp [profMem, initialArc, emptyProfileIDMap, msProfileIDs, alookup]
  · intro pid l hl
    simp [initialArc, alookup] at hl
  · simp [initialArc, emptyIndex]

theorem inv_after_index_op (s1 : ArcState) (stCore : IndexState)
    (hpol : ∀ pk e, polMem s1 pk e = true ↔ (pk, e) ∈ s1.labelIndex.matchPairs)
    (hwfpol : ∀ pk l, alookup s1.policyIDToEndpointKeys pk = some l → l ≠ [])
    (hprof : ∀ pid e, profMem s1 pid e = true
        ↔ pid ∈ msProfileIDs s1.endpointKeyToProfileIDs e)
    (hwfprof : ∀ pid l, alookup s1.profileIDToEndpointKeys pid = some l → l ≠ [])
    (hnd : s1.labelIndex.matchPairs.Nodup)
    (hcore : stCore.matchPairs = s1.labelIndex.matchPairs) :
    Inv (applyDeltas { s1 with labelIndex := (indexRecompute stCore).1 }
          (indexRecompute stCore).2).1 := by
  have hpol2 : ∀ pk e,
      polMem { s1 with labelIndex := (indexRecompute stCore).1 } pk e = true
        ↔ (pk, e) ∈ stCore.matchPairs := by
    intro pk e
    rw [@polMem_ext { s1 with labelIndex := (indexRecompute stCore).1 } s1 rfl pk e, hcore]
    exact hpol pk e
  have hwf2 : ∀ pk l,
      alookup ({ s1 with labelIndex := (indexRecompute stCore).1 }
        : ArcState).policyIDToEndpointKeys pk = some l → l ≠ [] := hwfpol
  have hnd2 : stCore.matchPairs.Nodup := by
    rw [hcore]
    exact hnd
  obtain ⟨g1, g2, g3⟩ := applyDeltas_after_recompute
    { s1 with labelIndex := (indexRecompute stCore).1 } stCore rfl hpol2 hwf2 hnd2
  obtain ⟨df1, df2, df3, df4, df5⟩ := applyDeltas_frame (indexRecompute stCore).2
    { s1 with labelIndex := (indexRecompute stCore).1 }
  refine ⟨g1, g2, ?_, ?_, g3⟩
  · intro pid e
    rw [@profMem_ext
      (applyDeltas { s1 with labelIndex := (indexRecompute stCore).1 }
        (indexRecompute stCore).2).1 s1 (df3.trans rfl) pid e, df5]
    exact hprof pid e
  · intro pid l hl
    rw [df3] at hl
    exact hwfprof pid l hl

theorem handleEndpointUpdate_inv (s : ArcState) (key : EndpointKey) (labels : LabelMap)
    (profileIDs : List String) (hInv : Inv s) :
    Inv (handleEndpointUpdate s key labels profileIDs).1 := by
  obtain ⟨hpol, hwfpol, hprof, hwfprof, hnd⟩ := hInv
  obtain ⟨f1, f2, f3, f4⟩ := updateEndpoint_frame s key profileIDs
  have hpol1 : ∀ pk e, polMem (updateEndpoint s key profileIDs).1 pk e = true
      ↔ (pk, e) ∈ (updateEndpoint s key profileIDs).1.labelIndex.matchPairs := by
    intro pk e
    rw [@polMem_ext (updateEndpoint s key profileIDs).1 s f3 pk e, f4]
    exact hpol pk e
  have hwfpol1 : ∀ pk l,
      alookup (updateEndpoint s key profileIDs).1.policyIDToEndpointKeys pk = some l →
        l ≠ [] := by
    intro pk l hl
    rw [f3] at hl
    exact hwfpol pk l hl
  have hprof1 := updateEndpoint_profile_inv s key profileIDs hprof
  have hwfprof1 := updateEndpoint_nonempty s key profileIDs hwfprof
  have hnd1 : (updateEndpoint s key profileIDs).1.labelIndex.matchPairs.Nodup := by
    rw [f4]
    exact hnd
  exact inv_after_index_op (updateEndpoint s key profileIDs).1
    { (updateEndpoint s key profileIDs).1.labelIndex with
      endpointLabels :=
        ainsert (updateEndpoint s key profileIDs).1.labelIndex.endpointLabels key labels,
      endpointParentIDs :=
        ainsert (updateEndpoint s key profileIDs).1.labelIndex.endpointParentIDs key
          profileIDs }
    hpol1 hwfpol1 hprof1 hwfprof1 hnd1 rfl

theorem handleEndpointGone_inv (s : ArcState) (key : EndpointKey) (hInv : Inv s) :
    Inv (handleEndpointGone s key).1 := by
  obtain ⟨hpol, hwfpol, hprof, hwfprof, hnd⟩ := hInv
  obtain ⟨f1, f2, f3, f4⟩ := updateEndpoint_frame s key []
  have hpol1 : ∀ pk e, polMem (updateEndpoint s key []).1 pk e = true
      ↔ (pk, e) ∈ (updateEndpoint s key []).1.labelIndex.matchPairs := by
    intro pk e
    rw [@polMem_ext (updateEndpoint s key []).1 s f3 pk e, f4]
    exact hpol pk e
  have hwfpol1 : ∀ pk l,
      alookup (updateEndpoint s key []).1.policyIDToEndpointKeys pk = some l → l ≠ [] := by
    intro pk l hl
    rw [f3] at hl
    exact hwfpol pk l hl
  have hprof1 := updateEndpoint_profile_inv s key [] hprof
  have hwfprof1 := updateEndpoint_nonempty s key [] hwfprof
  have hnd1 : (updateEndpoint s key []).1.labelIndex.matchPairs.Nodup := by
    rw [f4]
    exact hnd
  exact inv_after_index_op (updateEndpoint s key []).1
    { (updateEndpoint s key []).1.labelIndex with
      endpointLabels := aerase (updateEndpoint s key []).1.labelIndex.endpointLabels key,
      endpointParentIDs :=
        aerase (updateEndpoint s key []).1.labelIndex.endpointParentIDs key }
    hpol1 hwfpol1 hprof1 hwfprof1 hnd1 rfl

theorem inv_of_pair_eq {X : ArcState × List Event} {s2 : ArcState} {evs : List Event}
    (h : some X = some (s2, evs)) (hX : Inv X.1) : Inv s2 := by
  have h2 := Option.some.inj h
  subst h2
  exact hX

theorem Inv_OnUpdate {s s2 : ArcState} {u : ParsedUpdate} {evs : List Event}
    (hInv : Inv s) (h : OnUpdate s u = some (s2, evs)) : Inv s2 := by
  obtain ⟨hpol, hwfpol, hprof, hwfprof, hnd⟩ := hInv
  cases u with
  | workloadEndpoint k labels profileIDs =>
      simp only [OnUpdate] at h
      exact inv_of_pair_eq h (handleEndpointUpdate_inv s (.workload k) labels profileIDs
        ⟨hpol, hwfpol, hprof, hwfprof, hnd⟩)
  | workloadEndpointGone k =>
      simp only [OnUpdate] at h
      exact inv_of_pair_eq h (handleEndpointGone_inv s (.workload k)
        ⟨hpol, hwfpol, hprof, hwfprof, hnd⟩)
  | hostEndpoint k labels profileIDs =>
      simp only [OnUpdate] at h
      exact inv_of_pair_eq h (handleEndpointUpdate_inv s (.host k) labels profileIDs
        ⟨hpol, hwfpol, hprof, hwfprof, hnd⟩)
  | hostEndpointGone k =>
      simp only [OnUpdate] at h
      exact inv_of_pair_eq h (handleEndpointGone_inv s (.host k)
        ⟨hpol, hwfpol, hprof, hwfprof, hnd⟩)
  | profileLabels name labels =>
      simp only [OnUpdate] at h
      exact inv_of_pair_eq h (inv_after_index_op s
        { s.labelIndex with parentLabels := ainsert s.labelIndex.parentLabels name labels }
        hpol hwfpol hprof hwfprof hnd rfl)
  | profileLabelsGone name =>
      simp only [OnUpdate] at h
      exact inv_of_pair_eq h (inv_after_index_op s
        { s.labelIndex with parentLabels := aerase s.labelIndex.parentLabels name }
        hpol hwfpol hprof hwfprof hnd rfl)
  | profileRules name rules =>
      simp only [OnUpdate] at h
      split at h <;> exact inv_of_pair_eq h ⟨hpol, hwfpol, hprof, hwfprof, hnd⟩
  | profileRulesGone name =>
      simp only [OnUpdate] at h
      split at h <;> exact inv_of_pair_eq h ⟨hpol, hwfpol, hprof, hwfprof, hnd⟩
  | policy k pol =>
      simp only [OnUpdate] at h
      cases hp : parse pol.selector with
      | error err =>
          simp only [hp] at h
          exact Option.noConfusion h
      | ok sel =>
          simp only [hp] at h
          have hpol1 : ∀ pk e,
              polMem { s with allPolicies := ainsert s.allPolicies k pol } pk e = true
                ↔ (pk, e) ∈ ({ s with allPolicies := ainsert s.allPolicies k pol }
                  : ArcState).labelIndex.matchPairs := hpol
          have hwfpol1 : ∀ pk l,
              alookup ({ s with allPolicies := ainsert s.allPolicies k pol }
                : ArcState).policyIDToEndpointKeys pk = some l → l ≠ [] := hwfpol
          have hprof1 : ∀ pid e,
              profMem { s with allPolicies := ainsert s.allPolicies k pol } pid e = true
                ↔ pid ∈ msProfileIDs ({ s with allPolicies := ainsert s.allPolicies k pol }
                  : ArcState).endpointKeyToProfileIDs e := hprof
          have hwfprof1 : ∀ pid l,
              alookup ({ s with allPolicies := ainsert s.allPolicies k pol }
                : ArcState).profileIDToEndpointKeys pid = some l → l ≠ [] := hwfprof
          have hnd1 : ({ s with allPolicies := ainsert s.allPolicies k pol }
              : ArcState).labelIndex.matchPairs.Nodup := hnd
          have hres := inv_after_index_op
            { s with allPolicies := ainsert s.allPolicies k pol }
            { ({ s with allPolicies := ainsert s.allPolicies k pol }
                : ArcState).labelIndex with
              selectors := ainsert ({ s with allPolicies := ainsert s.allPolicies k pol }
                : ArcState).labelIndex.selectors k sel }
            hpol1 hwfpol1 hprof1 hwfprof1 hnd1 rfl
          split at h <;> exact inv_of_pair_eq h hres
  | policyGone k =>
      simp only [OnUpdate] at h
      have hpol1 : ∀ pk e,
          polMem { s with allPolicies := aerase s.allPolicies k } pk e = true
            ↔ (pk, e) ∈ ({ s with allPolicies := aerase s.allPolicies k }
              : ArcState).labelIndex.matchPairs := hpol
      have hwfpol1 : ∀ pk l,
          alookup ({ s with allPolicies := aerase s.allPolicies k }
            : ArcState).policyIDToEndpointKeys pk = some l → l ≠ [] := hwfpol
      have hprof1 : ∀ pid e,
          profMem { s with allPolicies := aerase s.allPolicies k } pid e = true
            ↔ pid ∈ msProfileIDs ({ s with allPolicies := aerase s.allPolicies k }
              : ArcState).endpointKeyToProfileIDs e := hprof
      have hwfprof1 : ∀ pid l,
          alookup ({ s with allPolicies := aerase s.allPolicies k }
            : ArcState).profileIDToEndpointKeys pid = some l → l ≠ [] := hwfprof
      have hnd1 : ({ s with allPolicies := aerase s.allPolicies k }
          : ArcState).labelIndex.matchPairs.Nodup := hnd
      exact inv_of_pair_eq h (inv_after_index_op
        { s with allPolicies := aerase s.allPolicies k }
        { ({ s with allPolicies := aerase s.allPolicies k } : ArcState).labelIndex with
          selectors := aerase ({ s with allPolicies := aerase s.allPolicies k }
            : ArcState).labelIndex.selectors k }
        hpol1 hwfpol1 hprof1 hwfprof1 hnd1 rfl)
  | other =>
      simp only [OnUpdate] at h
      exact inv_of_pair_eq h ⟨hpol, hwfpol, hprof, hwfprof, hnd⟩

theorem Inv_of_Reachable {s : ArcState} (h : Reachable s) : Inv s := by
  induction h with
  | init => exact Inv_initialArc
  | step hr hstep ih => exact Inv_OnUpdate ih hstep

theorem alookup_some_mem_keys {K V : Type} [DecidableEq K] (m : List (K × V)) (k : K) (v : V)
    (h : alookup m k = some v) : k ∈ m.map Prod.fst := by
  induction m with
  | nil => cases h
  | cons kv rest ih =>
      obtain ⟨k0, v0⟩ := kv
      by_cases hk : k = k0
      · subst hk
        simp
      · simp only [alookup, if_neg hk] at h
        simp [ih h]

theorem msRefCount_pos_iff (ms : EndpointKeyToProfileIDMap) (pid : String) :
    0 < msRefCount ms pid ↔ ∃ e, pid ∈ msProfileIDs ms e := by
  unfold msRefCount
  rw [List.length_pos]
  constructor
  · intro hne
    obtain ⟨e, he⟩ := List.exists_mem_of_ne_nil _ hne
    have hm := List.mem_filter.mp he
    exact ⟨e, by simpa using hm.2⟩
  · rintro ⟨e, he⟩
    intro hnil
    rw [List.filter_eq_nil_iff] at hnil
    have hkey : e ∈ (ms.m.map Prod.fst).dedup := by
      rw [List.mem_dedup]
      unfold msProfileIDs at he
      cases hl : alookup ms.m e with
      | none =>
          rw [hl] at he
          cases he
      | some l => exact alookup_some_mem_keys ms.m e l hl
    exact (hnil e hkey) (by simpa using he)

/-- C2: in every reachable quiescent state, a policy key is present in the
active-policy map exactly when the label index records an outstanding match
for it, a profile ID is present in the active-profile map exactly when the
endpoint-to-profile multiset has a non-zero reference count for it, and
every endpoint set stored in either map is nonempty. -/
theorem activation_correctness (s : ArcState) (h : Reachable s) :
    (∀ pk, (alookup s.policyIDToEndpointKeys pk).isSome = true
        ↔ ∃ e, (pk, e) ∈ s.labelIndex.matchPairs)
    ∧ (∀ pid, (alookup s.profileIDToEndpointKeys pid).isSome = true
        ↔ 0 < msRefCount s.endpointKeyToProfileIDs pid)
    ∧ (∀ pk l, alookup s.policyIDToEndpointKeys pk = some l → l ≠ [])
    ∧ (∀ pid l, alookup s.profileIDToEndpointKeys pid = some l → l ≠ []) := by
  obtain ⟨hpol, hwfpol, hprof, hwfprof, hnd⟩ := Inv_of_Reachable h
  refine ⟨?_, ?_, hwfpol, hwfprof⟩
  · intro pk
    constructor
    · intro hsome
      obtain ⟨l, hl⟩ := Option.isSome_iff_exists.mp hsome
      have hne := hwfpol pk l hl
      obtain ⟨e, he⟩ := List.exists_mem_of_ne_nil _ hne
      refine ⟨e, (hpol pk e).mp ?_⟩
      unfold polMem
      rw [hl]
      simpa using he
    · rintro ⟨e, he⟩
      have hm := (hpol pk e).mpr he
      unfold polMem at hm
      cases hl : alookup s.policyIDToEndpointKeys pk with
      | none =>
          rw [hl] at hm
          cases hm
      | some l => simp [hl]
  · intro pid
    rw [msRefCount_pos_iff]
    constructor
    · intro hsome
      obtain ⟨l, hl⟩ := Option.isSome_iff_exists.mp hsome
      have hne := hwfprof pid l hl
      obtain ⟨e, he⟩ := List.exists_mem_of_ne_nil _ hne
      refine ⟨e, (hprof pid e).mp ?_⟩
      unfold profMem
      rw [hl]
      simpa using he
    · rintro ⟨e, he⟩
      have hm := (hprof pid e).mpr he
      unfold profMem at hm
      cases hl : alookup s.profileIDToEndpointKeys pid with
      | none =>
          rw [hl] at hm
          cases hm
      | some l => simp [hl]

/-- Witness for C2 at the initial (reachable) state. -/
theorem activation_correctness_witness :
    (alookup initialArc.policyIDToEndpointKeys ⟨"p1", "t1"⟩).isSome = true
      ↔ ∃ e, ((⟨"p1", "t1"⟩ : PolicyKey), e) ∈ initialArc.labelIndex.matchPairs :=
  (activation_correctness initialArc Reachable.init).1 ⟨"p1", "t1"⟩

end Calico
